import Mathlib

/-!
Verification of the reservation lifecycle and status-decision engine of the
teta-ai-backend repository (src/index_FINAL_FULL.js, with the legacy variant
src/index.js modelled where a claim refers to it).

The JavaScript code is shallowly embedded: the Postgres-backed state is an
explicit record of lists, SQL conditional updates become list updates guarded
by the same predicates, and JS string comparison on "HH:MM" / "YYYY-MM-DD"
strings becomes an executable lexicographic comparison on the character data.
-/

namespace TetaAI

/-! ## String helpers (JS semantics) -/

/-- JS whitespace test for the characters relevant here (`String.prototype.trim`). -/
def isWS (c : Char) : Bool :=
  c == ' ' || c == '\t' || c == '\n' || c == '\r'

/-- `String.prototype.trim`: drop leading and trailing whitespace. -/
def jsTrim (s : String) : String :=
  ⟨((s.data.dropWhile isWS).reverse.dropWhile isWS).reverse⟩

/-- Lexicographic comparison of char lists by code unit; this is exactly the
JS abstract relational comparison `a < b` on strings (our strings are ASCII,
so UTF-16 code units coincide with code points). -/
def lexLt : List Char → List Char → Bool
  | [], [] => false
  | [], _ :: _ => true
  | _ :: _, [] => false
  | a :: as, b :: bs => if a < b then true else if b < a then false else lexLt as bs

/-- JS `a < b` on strings. -/
def jsLt (a b : String) : Bool := lexLt a.data b.data

/-- JS `a >= b` on strings (`!(a < b)`). -/
def jsGe (a b : String) : Bool := !(jsLt a b)

/-- JS `a <= b` on strings (`!(b < a)`); also models the SQL `time <= time`
comparison, which for valid zero-padded "HH:MM" strings is the same order. -/
def jsLe (a b : String) : Bool := !(jsLt b a)

/-! ## Time helpers (src/index_FINAL_FULL.js "TIME HELPERS") -/

/-- `String(n).padStart(2, "0")` for `n ≤ 99`: the two decimal digits of `n`. -/
def pad2 (n : Nat) : String :=
  ⟨[Nat.digitChar (n / 10), Nat.digitChar (n % 10)]⟩

/-- The zero-padded "HH:MM" string built by `normalizeTimeHHMI`'s return:
`String(hh).padStart(2,"0") + ":" + String(mm).padStart(2,"0")`. -/
def encodeHHMM (h m : Nat) : String :=
  ⟨[Nat.digitChar (h / 10), Nat.digitChar (h % 10), ':',
    Nat.digitChar (m / 10), Nat.digitChar (m % 10)]⟩

/-- Numeric value of a decimal digit character. -/
def charVal (c : Char) : Nat := c.toNat - 48

/-- Minutes-of-day value of a zero-padded "HH:MM" string (0 on any other shape). -/
def minutesOfDay (s : String) : Nat :=
  match s.data with
  | [h1, h2, _, m1, m2] =>
      (10 * charVal h1 + charVal h2) * 60 + (10 * charVal m1 + charVal m2)
  | _ => 0

/-- `normalizeTimeHHMI(t)`: trim, match `^(\d{1,2}):(\d{2})$`, check the hour is
in 0..23 and the minute in 0..59, and return the zero-padded "HH:MM" string;
`null` (here `none`) on any failure. -/
def normalizeTimeHHMI (t : String) : Option String :=
  match (jsTrim t).data with
  | [h, ':', m1, m2] =>
      if h.isDigit && m1.isDigit && m2.isDigit then
        let hh := charVal h
        let mm := 10 * charVal m1 + charVal m2
        if hh ≤ 23 && mm ≤ 59 then some (encodeHHMM hh mm) else none
      else none
  | [h1, h2, ':', m1, m2] =>
      if h1.isDigit && h2.isDigit && m1.isDigit && m2.isDigit then
        let hh := 10 * charVal h1 + charVal h2
        let mm := 10 * charVal m1 + charVal m2
        if hh ≤ 23 && mm ≤ 59 then some (encodeHHMM hh mm) else none
      else none
  | _ => none

/-- `toYMD(x)`: `String(x).trim().slice(0, 10)`. -/
def toYMD (x : String) : String :=
  ⟨(jsTrim x).data.take 10⟩

/-- A fully valid zero-padded "HH:MM" string (hours 00..23, minutes 00..59):
exactly the strings `normalizeTimeHHMI` produces. -/
def ValidHHMM (s : String) : Prop :=
  ∃ hh mm, hh ≤ 23 ∧ mm ≤ 59 ∧ s = encodeHHMM hh mm

/-- The strict `/^(\d{2}):(\d{2})$/` format test used on the cutoff inside
`decideReservationStatus`. -/
def cutoffOk (s : String) : Bool :=
  match s.data with
  | [h1, h2, ':', m1, m2] => h1.isDigit && h2.isDigit && m1.isDigit && m2.isDigit
  | _ => false

/-- `subtractMinutesHHMI(hhmi, minutes)`: subtract on total minutes, clamping
into `[0, 23*60+59]`, and re-encode zero-padded. Minutes are a `Nat` here, so
the JS guard `mins >= 0 ? floor(mins) : 0` is already satisfied. -/
def subtractMinutesHHMI (hhmi : String) (minutes : Nat) : String :=
  let t := (normalizeTimeHHMI hhmi).getD "00:00"
  let total0 := minutesOfDay t - minutes
  let total := if total0 > 23 * 60 + 59 then 23 * 60 + 59 else total0
  encodeHHMM (total / 60) (total % 60)

/-! ## Policy and status decision (src/index_FINAL_FULL.js `decideReservationStatus`) -/

/-- Per-restaurant rules as resolved by `getRestaurantRules` (max auto-confirm
party size, same-day cutoff "HH:MM"). -/
structure Rules where
  maxPeople : Int
  cutoffHHMI : String
deriving DecidableEq, Repr

inductive Status
  | Pending | Confirmed | Declined | Completed | NoShow | Cancelled
deriving DecidableEq, Repr

/-- Terminal states per the spec's state machine: everything except the two
open states `Pending` and `Confirmed`. -/
def Status.isTerminal : Status → Bool
  | .Pending => false
  | .Confirmed => false
  | _ => true

/-- Result of `decideReservationStatus`. -/
structure Decision where
  isTodayAL : Bool
  status : Status
  reason : String
deriving DecidableEq, Repr

/-- The effective cutoff string used by `decideReservationStatus`:
`String(rules.cutoffHHMI || "11:00").trim()`. -/
def cutoffEff (rules : Rules) : String :=
  jsTrim (if rules.cutoffHHMI == "" then "11:00" else rules.cutoffHHMI)

/-- `decideReservationStatus(restaurantId, dateStr, people)` with the two DB
reads made explicit: `today`/`nowHHMI` stand for the Albania clock queries and
`rules` for `getRestaurantRules`.  `isTodayAL` is
`isReservationTodayAL` = (`toYMD(dateStr) == today`). -/
def decideReservationStatus (today : String) (rules : Rules) (dateStr : String)
    (people : Int) (nowHHMI : String) : Decision :=
  let isTodayAL := toYMD dateStr == today
  let p := people
  let maxPeople := rules.maxPeople
  let cutoffHHMI := cutoffEff rules
  if p > maxPeople then
    ⟨isTodayAL, .Pending, "group_over_threshold"⟩
  else if isTodayAL then
    if !(cutoffOk cutoffHHMI) then ⟨true, .Pending, "cutoff_invalid_failsafe"⟩
    else if jsGe nowHHMI cutoffHHMI then ⟨true, .Pending, "same_day_after_cutoff"⟩
    else ⟨true, .Confirmed, "same_day_before_cutoff"⟩
  else
    ⟨false, .Confirmed, "future_auto_confirm"⟩

/-! ## Data model -/

/-- A row of `public.reservations` (the columns the lifecycle logic touches). -/
structure Reservation where
  id : Nat
  restaurant_id : Nat
  status : Status
  date : String
  time : String
  phone : String
  customer_name : String
  people : Int
  closed_at : Option Nat
  closed_reason : Option String
deriving DecidableEq, Repr

/-- A row of `public.owner_action_tokens`. -/
structure TokenRow where
  token : String
  restaurant_id : Nat
  reservation_pk_id : Nat
  action : String
  expires_at : Int
  used_at : Option Int
deriving DecidableEq, Repr

/-- A row of `public.customers` (the visit-statistics columns). -/
structure Customer where
  restaurant_id : Nat
  phone : String
  full_name : String
  first_seen_at : Nat
  last_seen_at : Nat
  visits_count : Nat
deriving DecidableEq, Repr

/-- The database state the lifecycle logic reads and writes. -/
structure DB where
  reservations : List Reservation
  tokens : List TokenRow
  customers : List Customer
deriving DecidableEq, Repr

/-- SQL `UPDATE … WHERE p … RETURNING`: every matching row is rewritten by `f`;
the first component is the `RETURNING` list, the second the new table. -/
def updateWhere {α : Type} (p : α → Bool) (f : α → α) (l : List α) :
    List α × List α :=
  ((l.filter p).map f, l.map fun x => if p x then f x else x)

/-- `SELECT … WHERE id=$1 AND restaurant_id=$2 LIMIT 1`. -/
def findRes (rid id : Nat) (db : List Reservation) : Option Reservation :=
  db.find? fun r => r.id == id && r.restaurant_id == rid

/-- A monotone civil timestamp for `('YYYY-MM-DD'::date + 'HH:MM'::time)`:
a day key from the digits of the date, times minutes-per-day, plus the
minutes-of-day of the time. -/
def ymdKey (ymd : String) : Nat :=
  match ymd.data with
  | [y1, y2, y3, y4, '-', m1, m2, '-', d1, d2] =>
      ((charVal y1 * 1000 + charVal y2 * 100 + charVal y3 * 10 + charVal y4) * 12 +
        (charVal m1 * 10 + charVal m2)) * 31 + (charVal d1 * 10 + charVal d2)
  | _ => 0

def civilTs (ymd hhmi : String) : Nat :=
  ymdKey ymd * 1440 + minutesOfDay hhmi

/-! ## Owner confirm / decline (POST /owner/reservations/:id/confirm, /decline) -/

inductive OwnerDecisionResult
  | notFound
  | alreadyDecided (statusBefore : Status)
  | success (row : Reservation)
deriving DecidableEq, Repr

/-- `POST /owner/reservations/:id/confirm`: read the current row for logging,
then `UPDATE … SET status='Confirmed' WHERE id=… AND restaurant_id=… AND
status='Pending' RETURNING …`; empty update ⇒ 404 if the row is absent, else
409 "Already decided: <statusBefore>". -/
def ownerConfirm (rid id : Nat) (db : List Reservation) :
    OwnerDecisionResult × List Reservation :=
  let before := findRes rid id db
  let upd := updateWhere
    (fun r => r.id == id && r.restaurant_id == rid && r.status == Status.Pending)
    (fun r => { r with status := Status.Confirmed }) db
  match upd.1 with
  | [] =>
    match before with
    | none => (.notFound, upd.2)
    | some b => (.alreadyDecided b.status, upd.2)
  | row :: _ => (.success row, upd.2)

/-- `POST /owner/reservations/:id/decline`: same shape with `'Declined'`
(note: no `closed_at` / `closed_reason` is written on this path). -/
def ownerDecline (rid id : Nat) (db : List Reservation) :
    OwnerDecisionResult × List Reservation :=
  let before := findRes rid id db
  let upd := updateWhere
    (fun r => r.id == id && r.restaurant_id == rid && r.status == Status.Pending)
    (fun r => { r with status := Status.Declined }) db
  match upd.1 with
  | [] =>
    match before with
    | none => (.notFound, upd.2)
    | some b => (.alreadyDecided b.status, upd.2)
  | row :: _ => (.success row, upd.2)

/-! ## Owner close (complete / no-show / cancel): `closeReservationByOwner` -/

def mapFinalStatus (action : String) : Option Status :=
  if action == "complete" then some .Completed
  else if action == "no-show" then some .NoShow
  else if action == "cancel" then some .Cancelled
  else none

inductive CloseResult
  | invalidAction
  | notFound
  | alreadyClosed (r : Reservation)
  | wrongState (r : Reservation)
  | stateChanged
  | closed (statusBefore statusAfter : Status) (row : Reservation)
deriving DecidableEq, Repr

/-- The customer-statistics upsert run on transition to `Completed`:
`INSERT … ON CONFLICT (restaurant_id, phone) DO UPDATE SET last_seen_at =
GREATEST(old, excluded), visits_count = old + 1`. -/
def upsertCustomerVisit (rid : Nat) (phone name : String) (ts : Nat)
    (cs : List Customer) : List Customer :=
  if cs.any (fun c => c.restaurant_id == rid && c.phone == phone) then
    cs.map fun c =>
      if c.restaurant_id == rid && c.phone == phone then
        { c with
          full_name := if name == "" then c.full_name else name,
          last_seen_at := max c.last_seen_at ts,
          visits_count := c.visits_count + 1 }
      else c
  else
    cs ++ [{ restaurant_id := rid, phone := phone, full_name := name,
             first_seen_at := ts, last_seen_at := ts, visits_count := 1 }]

/-- `closeReservationByOwner({restaurant_id, reservationPkId, action})`.
`now` stands for `NOW()`; `statsOk` models whether the best-effort customer
upsert (fired with `.catch(() => {})`) succeeds — on failure the stored status
transition is already durable and is not rolled back. -/
def closeReservationByOwner (rid id : Nat) (action : String) (now : Nat)
    (statsOk : Bool) (db : DB) : CloseResult × DB :=
  match mapFinalStatus action with
  | none => (.invalidAction, db)
  | some finalStatus =>
    match findRes rid id db.reservations with
    | none => (.notFound, db)
    | some r =>
      let statusBefore := r.status
      if statusBefore == .Completed || statusBefore == .NoShow ||
          statusBefore == .Cancelled then
        (.alreadyClosed r, db)
      else if action == "complete" && !(statusBefore == .Confirmed) then
        (.wrongState r, db)
      else if action == "cancel" &&
          !(statusBefore == .Pending || statusBefore == .Confirmed) then
        (.wrongState r, db)
      else if action == "no-show" &&
          !(statusBefore == .Pending || statusBefore == .Confirmed) then
        (.wrongState r, db)
      else
        let upd := updateWhere
          (fun x => x.id == id && x.restaurant_id == rid && x.status == statusBefore)
          (fun x => { x with status := finalStatus, closed_at := some now,
                             closed_reason := some ("owner_" ++ action) })
          db.reservations
        match upd.1 with
        | [] => (.stateChanged, { db with reservations := upd.2 })
        | row :: _ =>
          let customers' :=
            if finalStatus == .Completed && statsOk then
              upsertCustomerVisit rid row.phone row.customer_name
                (civilTs (toYMD row.date) ⟨(jsTrim row.time).data.take 5⟩)
                db.customers
            else db.customers
          (.closed statusBefore finalStatus row,
            { db with reservations := upd.2, customers := customers' })

/-! ## Owner action tokens: `consumeOwnerToken` -/

inductive ConsumeResult
  | missingToken
  | notFound
  | actionMismatch
  | alreadyUsed
  | expired
  | ok (restaurant_id reservation_pk_id : Nat)
deriving DecidableEq, Repr

/-- The read/validation phase of `consumeOwnerToken` (everything up to, and
excluding, the conditional `UPDATE`). -/
def tokenValidate (tokens : List TokenRow) (token action : String) (now : Int) :
    ConsumeResult :=
  let t := jsTrim token
  if t == "" then .missingToken
  else
    match tokens.find? (fun row => row.token == t) with
    | none => .notFound
    | some row =>
      if row.action != action then .actionMismatch
      else if row.used_at.isSome then .alreadyUsed
      else if row.expires_at < now then .expired
      else .ok row.restaurant_id row.reservation_pk_id

/-- The write phase: `UPDATE owner_action_tokens SET used_at=NOW() WHERE
token=$1 AND used_at IS NULL RETURNING token` — the atomic conditional update;
the Bool is whether any row was returned. -/
def tokenMarkUsed (tokens : List TokenRow) (token : String) (now : Int) :
    Bool × List TokenRow :=
  let t := jsTrim token
  let upd := updateWhere
    (fun x => x.token == t && x.used_at == none)
    (fun x => { x with used_at := some now }) tokens
  (!upd.1.isEmpty, upd.2)

/-- `consumeOwnerToken(token, action)`: validation in source order, then the
conditional mark-used; a lost conditional update also reports "already used". -/
def consumeOwnerToken (tokens : List TokenRow) (token action : String)
    (now : Int) : ConsumeResult × List TokenRow :=
  match tokenValidate tokens token action now with
  | .ok rid pk =>
    let m := tokenMarkUsed tokens token now
    if m.1 then (.ok rid pk, m.2) else (.alreadyUsed, m.2)
  | e => (e, tokens)

/-- The six interleavings of two concurrent `consumeOwnerToken` calls, each
split into its atomic read phase (R) and atomic conditional-update phase (U),
with each process reading before it updates. -/
inductive Sched
  | AABB | ABAB | ABBA | BAAB | BABA | BBAA
deriving DecidableEq, Repr

/-- One process's pending computation after its read phase: the validation
outcome it saw. -/
def finishConsume (seen : ConsumeResult) (tokens : List TokenRow)
    (token : String) (now : Int) : ConsumeResult × List TokenRow :=
  match seen with
  | .ok rid pk =>
    let m := tokenMarkUsed tokens token now
    if m.1 then (.ok rid pk, m.2) else (.alreadyUsed, m.2)
  | e => (e, tokens)

/-- Run two concurrent consumptions of the same token under a given
interleaving; returns (result of A, result of B, final tokens). -/
def runTwoConsume (σ : Sched) (tokens : List TokenRow) (token action : String)
    (now : Int) : ConsumeResult × ConsumeResult × List TokenRow :=
  match σ with
  | .AABB =>
    let a := consumeOwnerToken tokens token action now
    let b := consumeOwnerToken a.2 token action now
    (a.1, b.1, b.2)
  | .BBAA =>
    let b := consumeOwnerToken tokens token action now
    let a := consumeOwnerToken b.2 token action now
    (a.1, b.1, a.2)
  | .ABAB =>
    let ra := tokenValidate tokens token action now
    let rb := tokenValidate tokens token action now
    let a := finishConsume ra tokens token now
    let b := finishConsume rb a.2 token now
    (a.1, b.1, b.2)
  | .ABBA =>
    let ra := tokenValidate tokens token action now
    let rb := tokenValidate tokens token action now
    let b := finishConsume rb tokens token now
    let a := finishConsume ra b.2 token now
    (a.1, b.1, a.2)
  | .BAAB =>
    let rb := tokenValidate tokens token action now
    let ra := tokenValidate tokens token action now
    let a := finishConsume ra tokens token now
    let b := finishConsume rb a.2 token now
    (a.1, b.1, b.2)
  | .BABA =>
    let rb := tokenValidate tokens token action now
    let ra := tokenValidate tokens token action now
    let b := finishConsume rb tokens token now
    let a := finishConsume ra b.2 token now
    (a.1, b.1, a.2)

/-! ## Public click links: GET /o/confirm/:token and /o/decline/:token -/

inductive ClickResult
  | tokenError (e : ConsumeResult)
  | alreadyDecided
  | success (row : Reservation)
deriving DecidableEq, Repr

/-- `GET /o/confirm/:token`: consume the token first; only then attempt the
conditional `Pending → Confirmed` transition; an empty update renders the
"Already decided" page. -/
def clickConfirm (token : String) (now : Int) (db : DB) : ClickResult × DB :=
  let c := consumeOwnerToken db.tokens token "confirm" now
  match c.1 with
  | .ok rid pk =>
    let db1 := { db with tokens := c.2 }
    let upd := updateWhere
      (fun r => r.id == pk && r.restaurant_id == rid && r.status == Status.Pending)
      (fun r => { r with status := Status.Confirmed }) db1.reservations
    match upd.1 with
    | [] => (.alreadyDecided, { db1 with reservations := upd.2 })
    | row :: _ => (.success row, { db1 with reservations := upd.2 })
  | e => (.tokenError e, { db with tokens := c.2 })

/-- `GET /o/decline/:token`: identical with `'Declined'` (and, as in the
source, no `closed_at` write). -/
def clickDecline (token : String) (now : Int) (db : DB) : ClickResult × DB :=
  let c := consumeOwnerToken db.tokens token "decline" now
  match c.1 with
  | .ok rid pk =>
    let db1 := { db with tokens := c.2 }
    let upd := updateWhere
      (fun r => r.id == pk && r.restaurant_id == rid && r.status == Status.Pending)
      (fun r => { r with status := Status.Declined }) db1.reservations
    match upd.1 with
    | [] => (.alreadyDecided, { db1 with reservations := upd.2 })
    | row :: _ => (.success row, { db1 with reservations := upd.2 })
  | e => (.tokenError e, { db with tokens := c.2 })

/-! ## Auto-close sweep: POST /cron/auto-close -/

/-- The `WHERE` clause of the sweep's `SELECT`: status in (Confirmed, Pending)
and (date < today, or date = today and `NULLIF(time,'')::time <= cutoff`). -/
def sweepSelPred (today cutoff : String) (r : Reservation) : Bool :=
  (r.status == Status.Confirmed || r.status == Status.Pending) &&
  (jsLt r.date today || (r.date == today && r.time != "" && jsLe r.time cutoff))

/-- Insertion of one row into a list sorted by `ORDER BY date ASC, time ASC`. -/
def sweepInsert (r : Reservation) : List Reservation → List Reservation
  | [] => [r]
  | x :: xs =>
    if jsLt r.date x.date || (r.date == x.date && jsLt r.time x.time) then
      r :: x :: xs
    else x :: sweepInsert r xs

/-- `ORDER BY date ASC, time ASC` (insertion sort; any sort realises the SQL
ordering, ties being unspecified in SQL). -/
def sweepSort : List Reservation → List Reservation
  | [] => []
  | x :: xs => sweepInsert x (sweepSort xs)

/-- The sweep's `SELECT … WHERE … ORDER BY date, time LIMIT 500`. -/
def autoCloseSelect (today cutoff : String) (db : List Reservation) :
    List Reservation :=
  (sweepSort (db.filter (sweepSelPred today cutoff))).take 500

/-- Predicate of the per-row conditional `UPDATE`: same id, same restaurant,
and the status still equals the status seen by the `SELECT` snapshot. -/
def sweepRowPred (r x : Reservation) : Bool :=
  x.id == r.id && x.restaurant_id == r.restaurant_id && x.status == r.status

/-- `finalStatus = r.status === 'Confirmed' ? 'Completed' : 'NoShow'`. -/
def sweepFinal (r : Reservation) : Status :=
  if r.status == Status.Confirmed then .Completed else .NoShow

def sweepRowUpd (ts : Nat) (r x : Reservation) : Reservation :=
  { x with status := sweepFinal r, closed_at := some ts,
           closed_reason := some "auto_close_cron" }

/-- The sweep's loop over the selected snapshot rows: per row a conditional
update; a row whose conditional update returns nothing is skipped (counted by
neither counter) and the loop continues — the batch never fails. -/
def autoCloseProcess (sel : List Reservation) (ts : Nat) (db : DB) :
    (Nat × Nat) × DB :=
  match sel with
  | [] => ((0, 0), db)
  | r :: rest =>
    let upd := updateWhere (sweepRowPred r) (sweepRowUpd ts r) db.reservations
    let next := autoCloseProcess rest ts { db with reservations := upd.2 }
    if upd.1.isEmpty then next
    else if sweepFinal r == Status.Completed then
      ((next.1.1 + 1, next.1.2), next.2)
    else ((next.1.1, next.1.2 + 1), next.2)

/-- `POST /cron/auto-close`: cutoff = now − 120 minutes (floor-clamped),
select, then process; returns (completed, noshow) counts. -/
def autoClose (today nowHHMI : String) (ts : Nat) (db : DB) :
    (Nat × Nat) × DB :=
  let cutoffHHMI := subtractMinutesHHMI nowHHMI 120
  let sel := autoCloseSelect today cutoffHHMI db.reservations
  autoCloseProcess sel ts db

/-! ## Legacy owner approve (src/index.js POST /reservations/:id/approve) -/

inductive ApproveResult
  | notFound
  | approved (row : Reservation)
deriving DecidableEq, Repr

/-- `POST /reservations/:id/approve` from src/index.js: `UPDATE … SET
status='Confirmed' WHERE restaurant_id=$1 AND id=$2 RETURNING …` — with no
condition on the previous status. -/
def approveReservation (rid id : Nat) (db : List Reservation) :
    ApproveResult × List Reservation :=
  let upd := updateWhere
    (fun r => r.restaurant_id == rid && r.id == id)
    (fun r => { r with status := Status.Confirmed }) db
  match upd.1 with
  | [] => (.notFound, upd.2)
  | row :: _ => (.approved row, upd.2)

/-! ## Reservation creation: POST /reservations and its time guard -/

/-- `isTimePassedTodayAL(reservationDate, reservationTimeHHMI)`: true iff the
date is today (Albania) and the normalized time is strictly before now. -/
def isTimePassedTodayAL (today nowHHMI reservationDate reservationTimeHHMI : String) :
    Bool :=
  if toYMD reservationDate != today then false
  else
    match normalizeTimeHHMI reservationTimeHHMI with
    | none => false
    | some timeHHMI => jsLt timeHHMI nowHHMI

inductive GuardResult
  | invalidTime
  | timePassed
  | ok (timeHHMI : String)
deriving DecidableEq, Repr

/-- `rejectIfTimePassedTodayAL(reservationDate, rawTime)`. -/
def rejectIfTimePassedTodayAL (today nowHHMI reservationDate rawTime : String) :
    GuardResult :=
  match normalizeTimeHHMI rawTime with
  | none => .invalidTime
  | some timeHHMI =>
    if isTimePassedTodayAL today nowHHMI reservationDate timeHHMI then .timePassed
    else .ok timeHHMI

/-- The request body fields of `POST /reservations` the lifecycle logic uses. -/
structure CreateReq where
  customer_name : String
  phone : String
  date : String
  time : String
  people : Int
deriving DecidableEq, Repr

inductive CreateResult
  | missingField
  | invalidPeople
  | invalidTime
  | timePassed
  | created (id : Nat) (status : Status) (reason : String)
deriving DecidableEq, Repr

/-- `POST /reservations`: required-field check, people check, strict time
normalization, the time-passed guard, then `decideReservationStatus`, then
the `INSERT` with `closed_at`/`closed_reason` unset. -/
def createReservation (today nowHHMI : String) (rules : Rules) (rid : Nat)
    (req : CreateReq) (nextId : Nat) (db : DB) : CreateResult × DB :=
  if req.customer_name == "" || req.phone == "" || req.date == "" ||
      req.time == "" then
    (.missingField, db)
  else if !(req.people > 0) then (.invalidPeople, db)
  else
    let dateStr := jsTrim req.date
    match normalizeTimeHHMI req.time with
    | none => (.invalidTime, db)
    | some timeStr =>
      match rejectIfTimePassedTodayAL today nowHHMI dateStr timeStr with
      | .invalidTime => (.invalidTime, db)
      | .timePassed => (.timePassed, db)
      | .ok _ =>
        let decision := decideReservationStatus today rules dateStr req.people nowHHMI
        let row : Reservation :=
          { id := nextId, restaurant_id := rid, status := decision.status,
            date := dateStr, time := timeStr, phone := req.phone,
            customer_name := req.customer_name, people := req.people,
            closed_at := none, closed_reason := none }
        (.created nextId decision.status decision.reason,
          { db with reservations := db.reservations ++ [row] })

/-! ## Operation sequences and the state invariant -/

/-- One API-level operation on the reservation store, as implemented in
src/index_FINAL_FULL.js. Clock values, rules, timestamps and the best-effort
flag travel with the operation (they are ambient inputs of the route). -/
inductive Op
  | create (today nowHHMI : String) (rules : Rules) (rid : Nat)
      (req : CreateReq) (nextId : Nat)
  | ownerConfirm (rid id : Nat)
  | ownerDecline (rid id : Nat)
  | ownerClose (rid id : Nat) (action : String) (now : Nat) (statsOk : Bool)
  | clickConfirm (token : String) (now : Int)
  | clickDecline (token : String) (now : Int)
  | autoClose (today nowHHMI : String) (ts : Nat)

/-- Apply one operation (dropping the HTTP response). -/
def step (op : Op) (db : DB) : DB :=
  match op with
  | .create today nowHHMI rules rid req nextId =>
      (createReservation today nowHHMI rules rid req nextId db).2
  | .ownerConfirm rid id =>
      { db with reservations := (TetaAI.ownerConfirm rid id db.reservations).2 }
  | .ownerDecline rid id =>
      { db with reservations := (TetaAI.ownerDecline rid id db.reservations).2 }
  | .ownerClose rid id action now statsOk =>
      (closeReservationByOwner rid id action now statsOk db).2
  | .clickConfirm token now => (TetaAI.clickConfirm token now db).2
  | .clickDecline token now => (TetaAI.clickDecline token now db).2
  | .autoClose today nowHHMI ts => (TetaAI.autoClose today nowHHMI ts db).2

def run (ops : List Op) (db : DB) : DB :=
  ops.foldl (fun d op => step op d) db

def emptyDB : DB := ⟨[], [], []⟩

/-- The state invariant that actually holds of the code: `closed_at` is
non-null exactly on the statuses written by `closeReservationByOwner` and the
auto-close sweep. -/
def resInv (r : Reservation) : Bool :=
  r.closed_at.isSome ==
    (r.status == Status.Completed || r.status == Status.NoShow ||
     r.status == Status.Cancelled)

def dbInv (db : DB) : Bool := db.reservations.all resInv

/-- The invariant as worded by the spec (closed set additionally contains
`Declined`); kept separate so it can be compared against the code. -/
def specResInvC2 (r : Reservation) : Bool :=
  r.closed_at.isSome ==
    (r.status == Status.Completed || r.status == Status.NoShow ||
     r.status == Status.Declined || r.status == Status.Cancelled)

def specInvC2 (db : DB) : Bool := db.reservations.all specResInvC2

/-! ## Lemmas on digits and lexicographic time comparison -/

theorem isDigit_digitChar : ∀ d : Nat, d < 10 → (Nat.digitChar d).isDigit = true := by
  decide

theorem digitChar_lt_iff : ∀ a : Nat, a < 10 → ∀ b : Nat, b < 10 →
    ((Nat.digitChar a < Nat.digitChar b) ↔ a < b) := by
  decide

theorem charVal_digitChar : ∀ d : Nat, d < 10 → charVal (Nat.digitChar d) = d := by
  decide

theorem lexLt_irrefl (l : List Char) : lexLt l l = false := by
  induction l with
  | nil => rfl
  | cons a as ih => simp [lexLt, ih]

theorem jsLt_self (s : String) : jsLt s s = false := lexLt_irrefl s.data

/-- Two leading decimal digit positions compare like the two-digit numbers they
encode; ties fall through to the rest. -/
theorem lexLt_two_digits (x y : Nat) (hx : x ≤ 99) (hy : y ≤ 99)
    (r1 r2 : List Char) :
    lexLt (Nat.digitChar (x / 10) :: Nat.digitChar (x % 10) :: r1)
          (Nat.digitChar (y / 10) :: Nat.digitChar (y % 10) :: r2) =
      (if x < y then true else if y < x then false else lexLt r1 r2) := by
  have dx1 : x / 10 < 10 := by omega
  have dy1 : y / 10 < 10 := by omega
  have dx2 : x % 10 < 10 := by omega
  have dy2 : y % 10 < 10 := by omega
  have e1 := digitChar_lt_iff (x / 10) dx1 (y / 10) dy1
  have e1' := digitChar_lt_iff (y / 10) dy1 (x / 10) dx1
  have e2 := digitChar_lt_iff (x % 10) dx2 (y % 10) dy2
  have e2' := digitChar_lt_iff (y % 10) dy2 (x % 10) dx2
  rcases Nat.lt_trichotomy (x / 10) (y / 10) with h | h | h
  · rw [lexLt, if_pos (e1.mpr h), if_pos (by omega)]
  · rcases Nat.lt_trichotomy (x % 10) (y % 10) with h' | h' | h'
    · rw [lexLt, if_neg (by rw [e1]; omega), if_neg (by rw [e1']; omega),
        lexLt, if_pos (e2.mpr h'), if_pos (by omega)]
    · rw [lexLt, if_neg (by rw [e1]; omega), if_neg (by rw [e1']; omega),
        lexLt, if_neg (by rw [e2]; omega), if_neg (by rw [e2']; omega),
        if_neg (by omega), if_neg (by omega)]
    · rw [lexLt, if_neg (by rw [e1]; omega), if_neg (by rw [e1']; omega),
        lexLt, if_neg (by rw [e2]; omega), if_pos (e2'.mpr h'),
        if_neg (by omega), if_pos (by omega)]
  · rw [lexLt, if_neg (by rw [e1]; omega), if_pos (e1'.mpr h),
      if_neg (by omega), if_pos (by omega)]

/-- JS string `<` on zero-padded "HH:MM" strings agrees with minutes-of-day
order. -/
theorem jsLt_encode (h1 m1 h2 m2 : Nat) (hh1 : h1 ≤ 23) (hm1 : m1 ≤ 59)
    (hh2 : h2 ≤ 23) (hm2 : m2 ≤ 59) :
    jsLt (encodeHHMM h1 m1) (encodeHHMM h2 m2) = true ↔
      h1 * 60 + m1 < h2 * 60 + m2 := by
  show lexLt
      [Nat.digitChar (h1 / 10), Nat.digitChar (h1 % 10), ':',
        Nat.digitChar (m1 / 10), Nat.digitChar (m1 % 10)]
      [Nat.digitChar (h2 / 10), Nat.digitChar (h2 % 10), ':',
        Nat.digitChar (m2 / 10), Nat.digitChar (m2 % 10)] = true ↔ _
  rw [lexLt_two_digits h1 h2 (by omega) (by omega)]
  by_cases h : h1 < h2
  · rw [if_pos h]; simp; omega
  · rw [if_neg h]
    by_cases h' : h2 < h1
    · rw [if_pos h']; simp; omega
    · rw [if_neg h']
      have hcolon : ¬ (':' : Char) < ':' := by decide
      rw [lexLt, if_neg hcolon, if_neg hcolon,
        lexLt_two_digits m1 m2 (by omega) (by omega)]
      by_cases hm : m1 < m2
      · rw [if_pos hm]; simp; omega
      · rw [if_neg hm]
        by_cases hm' : m2 < m1
        · rw [if_pos hm']; simp; omega
        · rw [if_neg hm']; simp [lexLt]; omega

theorem minutesOfDay_encode (h m : Nat) (hh : h ≤ 99) (hm : m ≤ 99) :
    minutesOfDay (encodeHHMM h m) = h * 60 + m := by
  show (10 * charVal (Nat.digitChar (h / 10)) + charVal (Nat.digitChar (h % 10))) * 60 +
      (10 * charVal (Nat.digitChar (m / 10)) + charVal (Nat.digitChar (m % 10))) = h * 60 + m
  rw [charVal_digitChar _ (by omega), charVal_digitChar _ (by omega),
    charVal_digitChar _ (by omega), charVal_digitChar _ (by omega)]
  omega

/-- Everything `normalizeTimeHHMI` returns is a valid zero-padded "HH:MM". -/
theorem normalize_shape (t s : String) (h : normalizeTimeHHMI t = some s) :
    ∃ hh mm, hh ≤ 23 ∧ mm ≤ 59 ∧ s = encodeHHMM hh mm := by
  unfold normalizeTimeHHMI at h
  split at h
  · split at h
    · dsimp only at h
      split at h
      · rename_i hb
        simp only [Bool.and_eq_true, decide_eq_true_eq] at hb
        exact ⟨_, _, hb.1, hb.2, (Option.some.injEq _ _ ▸ h).symm⟩
      · exact absurd h (by simp)
    · exact absurd h (by simp)
  · split at h
    · dsimp only at h
      split at h
      · rename_i hb
        simp only [Bool.and_eq_true, decide_eq_true_eq] at hb
        exact ⟨_, _, hb.1, hb.2, (Option.some.injEq _ _ ▸ h).symm⟩
      · exact absurd h (by simp)
    · exact absurd h (by simp)
  · exact absurd h (by simp)

theorem cutoffOk_encode (h m : Nat) (hh : h ≤ 99) (hm : m ≤ 99) :
    cutoffOk (encodeHHMM h m) = true := by
  show ((Nat.digitChar (h / 10)).isDigit && (Nat.digitChar (h % 10)).isDigit &&
    (Nat.digitChar (m / 10)).isDigit && (Nat.digitChar (m % 10)).isDigit) = true
  rw [isDigit_digitChar _ (by omega), isDigit_digitChar _ (by omega),
    isDigit_digitChar _ (by omega), isDigit_digitChar _ (by omega)]
  rfl

theorem isWS_digitChar : ∀ d : Nat, d < 10 → isWS (Nat.digitChar d) = false := by
  decide

theorem jsTrim_encode (h m : Nat) (hh : h ≤ 99) :
    jsTrim (encodeHHMM h m) = encodeHHMM h m := by
  have w1 : isWS (Nat.digitChar (h / 10)) = false := isWS_digitChar _ (by omega)
  have w4 : isWS (Nat.digitChar (m % 10)) = false := isWS_digitChar _ (by omega)
  unfold jsTrim encodeHHMM
  simp [List.dropWhile, w1, w4]

/-- `normalizeTimeHHMI` is stable on its own output. -/
theorem normalize_encode (a b : Nat) (ha : a ≤ 23) (hb : b ≤ 59) :
    normalizeTimeHHMI (encodeHHMM a b) = some (encodeHHMM a b) := by
  unfold normalizeTimeHHMI
  rw [jsTrim_encode a b (by omega)]
  split
  · rename_i h' m1 m2 heq
    simp [encodeHHMM] at heq
  · rename_i h1 h2 m1 m2 heq
    simp only [encodeHHMM, String.data] at heq
    obtain ⟨e1, e2, e3, e4⟩ : h1 = Nat.digitChar (a / 10) ∧ h2 = Nat.digitChar (a % 10) ∧
        m1 = Nat.digitChar (b / 10) ∧ m2 = Nat.digitChar (b % 10) := by
      simpa using heq.symm
    subst e1; subst e2; subst e3; subst e4
    rw [isDigit_digitChar _ (by omega), isDigit_digitChar _ (by omega),
      isDigit_digitChar _ (by omega), isDigit_digitChar _ (by omega)]
    dsimp only
    rw [charVal_digitChar _ (by omega), charVal_digitChar _ (by omega),
      charVal_digitChar _ (by omega), charVal_digitChar _ (by omega)]
    have ea : 10 * (a / 10) + a % 10 = a := by omega
    have eb : 10 * (b / 10) + b % 10 = b := by omega
    rw [ea, eb]
    simp [ha, hb]
  · rename_i hne
    exact absurd rfl (hne (Nat.digitChar (a / 10)) (Nat.digitChar (a % 10))
      (Nat.digitChar (b / 10)) (Nat.digitChar (b % 10)))

/-! ## Claim C3: threshold rule -/

/-- **C3**: for every tenant policy, requested date and current time, if the
party size is strictly greater than the policy ceiling, `decideReservationStatus`
returns `Pending` with reason `group_over_threshold` — same-day and future
dates alike, independent of the cutoff. -/
theorem C3_group_over_threshold (today : String) (rules : Rules)
    (dateStr : String) (people : Int) (nowHHMI : String)
    (h : people > rules.maxPeople) :
    (decideReservationStatus today rules dateStr people nowHHMI).status =
        Status.Pending ∧
    (decideReservationStatus today rules dateStr people nowHHMI).reason =
        "group_over_threshold" := by
  simp [decideReservationStatus, h]

/-- Witness for C3 at the spec's scenario: ceiling 6, party 8, tomorrow. -/
theorem C3_group_over_threshold_witness :
    (8 : Int) > (Rules.mk 6 "11:00").maxPeople ∧
    ((decideReservationStatus "2026-10-12" ⟨6, "11:00"⟩ "2026-10-13" 8 "09:00").status =
        Status.Pending ∧
     (decideReservationStatus "2026-10-12" ⟨6, "11:00"⟩ "2026-10-13" 8 "09:00").reason =
        "group_over_threshold") :=
  ⟨by decide,
   C3_group_over_threshold "2026-10-12" ⟨6, "11:00"⟩ "2026-10-13" 8 "09:00" (by decide)⟩

/-! ## Claim C4: cutoff boundary and future auto-confirm -/

/-- **C4**: with party size at most the ceiling and a valid zero-padded cutoff:
on a same-day request the decision is `Confirmed`/`same_day_before_cutoff`
exactly when now < cutoff and `Pending`/`same_day_after_cutoff` when
now ≥ cutoff (in particular when now equals the cutoff); on a future-date
request it is `Confirmed`/`future_auto_confirm`. -/
theorem C4_cutoff_boundary (today : String) (rules : Rules) (dateStr : String)
    (people : Int) (nowHHMI : String) (hp : people ≤ rules.maxPeople)
    (hval : ValidHHMM (cutoffEff rules)) :
    (toYMD dateStr = today →
      ((jsLt nowHHMI (cutoffEff rules) = true →
          decideReservationStatus today rules dateStr people nowHHMI =
            ⟨true, .Confirmed, "same_day_before_cutoff"⟩) ∧
       (jsLt nowHHMI (cutoffEff rules) = false →
          decideReservationStatus today rules dateStr people nowHHMI =
            ⟨true, .Pending, "same_day_after_cutoff"⟩) ∧
       (nowHHMI = cutoffEff rules →
          decideReservationStatus today rules dateStr people nowHHMI =
            ⟨true, .Pending, "same_day_after_cutoff"⟩))) ∧
    (toYMD dateStr ≠ today →
      decideReservationStatus today rules dateStr people nowHHMI =
        ⟨false, .Confirmed, "future_auto_confirm"⟩) := by
  obtain ⟨hh, mm, hhh, hmm, hcut⟩ := hval
  have hnp : ¬ people > rules.maxPeople := not_lt.mpr hp
  have hok : cutoffOk (cutoffEff rules) = true := by
    rw [hcut]; exact cutoffOk_encode hh mm (by omega) (by omega)
  constructor
  · intro htoday
    have hbeq : (toYMD dateStr == today) = true := beq_iff_eq.mpr htoday
    refine ⟨?_, ?_, ?_⟩
    · intro hlt
      simp [decideReservationStatus, hnp, hbeq, hok, jsGe, hlt]
    · intro hlt
      simp [decideReservationStatus, hnp, hbeq, hok, jsGe, hlt]
    · intro heq
      have hlt : jsLt nowHHMI (cutoffEff rules) = false := by
        rw [heq]; exact jsLt_self _
      simp [decideReservationStatus, hnp, hbeq, hok, jsGe, hlt]
  · intro hne
    have hbeq : (toYMD dateStr == today) = false := by
      simp [hne]
    simp [decideReservationStatus, hnp, hbeq]

/-- Witness for C4: cutoff "11:00", now "10:59" (before) — plus the boundary
now = "11:00" and a future-date case, all at party size 2 ≤ 6. -/
theorem C4_cutoff_boundary_witness :
    ((2 : Int) ≤ (Rules.mk 6 "11:00").maxPeople ∧
      ValidHHMM (cutoffEff ⟨6, "11:00"⟩) ∧ toYMD "2026-10-12" = "2026-10-12" ∧
      jsLt "10:59" (cutoffEff ⟨6, "11:00"⟩) = true ∧
      "11:00" = cutoffEff ⟨6, "11:00"⟩ ∧ toYMD "2026-10-13" ≠ "2026-10-12") ∧
    decideReservationStatus "2026-10-12" ⟨6, "11:00"⟩ "2026-10-12" 2 "10:59" =
      ⟨true, .Confirmed, "same_day_before_cutoff"⟩ ∧
    decideReservationStatus "2026-10-12" ⟨6, "11:00"⟩ "2026-10-12" 2 "11:00" =
      ⟨true, .Pending, "same_day_after_cutoff"⟩ ∧
    decideReservationStatus "2026-10-12" ⟨6, "11:00"⟩ "2026-10-13" 2 "10:59" =
      ⟨false, .Confirmed, "future_auto_confirm"⟩ :=
  have hval : ValidHHMM (cutoffEff ⟨6, "11:00"⟩) := ⟨11, 0, by omega, by omega, by decide⟩
  ⟨⟨by decide, hval, by decide, by decide, by decide, by decide⟩,
   ((C4_cutoff_boundary "2026-10-12" ⟨6, "11:00"⟩ "2026-10-12" 2 "10:59"
      (by decide) hval).1 (by decide)).1 (by decide),
   (((C4_cutoff_boundary "2026-10-12" ⟨6, "11:00"⟩ "2026-10-12" 2 "11:00"
      (by decide) hval).1 (by decide)).2.2 (by decide)),
   ((C4_cutoff_boundary "2026-10-12" ⟨6, "11:00"⟩ "2026-10-13" 2 "10:59"
      (by decide) hval).2 (by decide))⟩

/-! ## Claim C8: the TIME_PASSED guard -/

/-- **C8**: creation rejects with the distinct TIME_PASSED error — for every
policy, i.e. before `decideReservationStatus` can contribute — exactly when the
request is for today with normalized time strictly earlier than now, and the
reservation is never stored; a future-date request, or one for today at or
after the current minute, passes the guard and is inserted with the decided
status and `closed_at` unset. -/
theorem C8_time_passed_guard (today nowHHMI : String) (rules : Rules) (rid : Nat)
    (req : CreateReq) (nextId : Nat) (db : DB) (t : String)
    (hname : req.customer_name ≠ "") (hphone : req.phone ≠ "")
    (hdate : req.date ≠ "") (htime : req.time ≠ "")
    (hpeople : req.people > 0)
    (ht : normalizeTimeHHMI req.time = some t) :
    (toYMD (jsTrim req.date) = today → jsLt t nowHHMI = true →
      createReservation today nowHHMI rules rid req nextId db =
        (CreateResult.timePassed, db)) ∧
    (toYMD (jsTrim req.date) ≠ today ∨ jsLt t nowHHMI = false →
      createReservation today nowHHMI rules rid req nextId db =
        (CreateResult.created nextId
            (decideReservationStatus today rules (jsTrim req.date) req.people nowHHMI).status
            (decideReservationStatus today rules (jsTrim req.date) req.people nowHHMI).reason,
          { db with reservations := db.reservations ++
              [{ id := nextId, restaurant_id := rid,
                 status := (decideReservationStatus today rules (jsTrim req.date) req.people nowHHMI).status,
                 date := jsTrim req.date, time := t, phone := req.phone,
                 customer_name := req.customer_name, people := req.people,
                 closed_at := none, closed_reason := none }] })) := by
  obtain ⟨a, b, ha, hb, rfl⟩ := normalize_shape _ _ ht
  have hidem := normalize_encode a b ha hb
  constructor
  · intro htoday hlt
    simp [createReservation, hname, hphone, hdate, htime, hpeople, ht,
      rejectIfTimePassedTodayAL, isTimePassedTodayAL, hidem, htoday, hlt]
  · intro hcase
    rcases hcase with hne | hlt
    · simp [createReservation, hname, hphone, hdate, htime, hpeople, ht,
        rejectIfTimePassedTodayAL, isTimePassedTodayAL, hidem, hne]
    · by_cases htoday : toYMD (jsTrim req.date) = today
      · simp [createReservation, hname, hphone, hdate, htime, hpeople, ht,
          rejectIfTimePassedTodayAL, isTimePassedTodayAL, hidem, htoday, hlt]
      · simp [createReservation, hname, hphone, hdate, htime, hpeople, ht,
          rejectIfTimePassedTodayAL, isTimePassedTodayAL, hidem, htoday]

/-- Witness for C8: today at "12:00", requested time "11:30" (already past). -/
theorem C8_time_passed_guard_witness :
    (("A" : String) ≠ "" ∧ ("355" : String) ≠ "" ∧ ("2026-10-12" : String) ≠ "" ∧
      ("11:30" : String) ≠ "" ∧ (2 : Int) > 0 ∧
      normalizeTimeHHMI "11:30" = some "11:30" ∧
      toYMD (jsTrim "2026-10-12") = "2026-10-12" ∧ jsLt "11:30" "12:00" = true) ∧
    createReservation "2026-10-12" "12:00" ⟨6, "11:00"⟩ 1
        ⟨"A", "355", "2026-10-12", "11:30", 2⟩ 1 emptyDB =
      (CreateResult.timePassed, emptyDB) :=
  ⟨⟨by decide, by decide, by decide, by decide, by decide, by decide, by decide,
    by decide⟩,
   (C8_time_passed_guard "2026-10-12" "12:00" ⟨6, "11:00"⟩ 1
      ⟨"A", "355", "2026-10-12", "11:30", 2⟩ 1 emptyDB "11:30"
      (by decide) (by decide) (by decide) (by decide) (by decide) (by decide)).1
    (by decide) (by decide)⟩

/-! ## Claim C9: lexicographic time order is chronological order -/

/-- **C9**: for any two outputs of `normalizeTimeHHMI`, JS string `<` agrees
with the minutes-of-day order, so the string comparisons in the cutoff
decision and the time-passed guard are order-correct. -/
theorem C9_lex_agrees_with_chronological (t1 t2 s1 s2 : String)
    (h1 : normalizeTimeHHMI t1 = some s1) (h2 : normalizeTimeHHMI t2 = some s2) :
    jsLt s1 s2 = true ↔ minutesOfDay s1 < minutesOfDay s2 := by
  obtain ⟨a, b, ha, hb, rfl⟩ := normalize_shape _ _ h1
  obtain ⟨c, d, hc, hd, rfl⟩ := normalize_shape _ _ h2
  rw [minutesOfDay_encode a b (by omega) (by omega),
    minutesOfDay_encode c d (by omega) (by omega)]
  exact jsLt_encode a b c d ha hb hc hd

/-- Witness for C9 on concrete normalized times. -/
theorem C9_lex_agrees_with_chronological_witness :
    normalizeTimeHHMI "9:30" = some "09:30" ∧
    normalizeTimeHHMI "14:05" = some "14:05" ∧
    (jsLt "09:30" "14:05" = true ↔ minutesOfDay "09:30" < minutesOfDay "14:05") :=
  ⟨by decide, by decide,
   C9_lex_agrees_with_chronological "9:30" "14:05" "09:30" "14:05"
     (by decide) (by decide)⟩

/-! ## Claim C5: token validation order and single use -/

theorem validate_ok (tokens : List TokenRow) (token action : String) (now : Int)
    (tok : TokenRow)
    (hne : jsTrim token ≠ "")
    (hfind : tokens.find? (fun row => row.token == jsTrim token) = some tok)
    (hact : tok.action = action) (hused : tok.used_at = none)
    (hexp : ¬ tok.expires_at < now) :
    tokenValidate tokens token action now =
      ConsumeResult.ok tok.restaurant_id tok.reservation_pk_id := by
  simp [tokenValidate, hne, hfind, hact, hused, hexp]

theorem mark_ok (tokens : List TokenRow) (token : String) (now : Int)
    (tok : TokenRow)
    (hfind : tokens.find? (fun row => row.token == jsTrim token) = some tok)
    (hused : tok.used_at = none) :
    (tokenMarkUsed tokens token now).1 = true := by
  have hp0 := List.find?_some hfind
  have hp : (tok.token == jsTrim token) = true := hp0
  have hmem : tok ∈ tokens := List.mem_of_find?_eq_some hfind
  have hmem2 : ({ tok with used_at := some now } : TokenRow) ∈
      (tokens.filter (fun x => x.token == jsTrim token && x.used_at == none)).map
        (fun x => { x with used_at := some now }) :=
    List.mem_map_of_mem _ (List.mem_filter.mpr ⟨hmem, by simp [hp, hused]⟩)
  simp only [tokenMarkUsed, updateWhere]
  simp [List.isEmpty_eq_false.mpr (List.ne_nil_of_mem hmem2)]

theorem find?_after_update (l : List TokenRow) (t : String) (now : Int) :
    ((l.map fun x => if x.token == t && x.used_at == none
        then { x with used_at := some now } else x).find?
      (fun row => row.token == t)) =
    (l.find? (fun row => row.token == t)).map
      (fun x => if x.token == t && x.used_at == none
        then { x with used_at := some now } else x) := by
  induction l with
  | nil => rfl
  | cons x xs ih =>
    by_cases hx : x.token = t
    · by_cases hu : x.used_at = none
      · simp [List.find?_cons, hx, hu]
      · simp [List.find?_cons, hx, hu]
    · have hxb : (x.token == t) = false := by simpa using hx
      have hg : ((if (x.token == t && x.used_at == none) = true
          then { x with used_at := some now } else x).token == t) = false := by
        by_cases hu : x.used_at = none <;> simp [hx, hu]
      conv_lhs => rw [List.map_cons, List.find?_cons, hg]
      conv_rhs => rw [List.find?_cons, hxb]
      exact ih

/-- After a successful conditional mark-used, the token is found with its
`used_at` set. -/
theorem find?_mark_used (tokens : List TokenRow) (token : String)
    (now : Int) (tok : TokenRow)
    (hfind : tokens.find? (fun row => row.token == jsTrim token) = some tok)
    (hused : tok.used_at = none) :
    ((tokenMarkUsed tokens token now).2).find?
      (fun row => row.token == jsTrim token) =
      some { tok with used_at := some now } := by
  have hp0 := List.find?_some hfind
  have hp : (tok.token == jsTrim token) = true := hp0
  have hpe : tok.token = jsTrim token := by simpa using hp
  simp only [tokenMarkUsed, updateWhere]
  rw [find?_after_update tokens (jsTrim token) now, hfind]
  simp [hpe, hused]

theorem validate_after_mark (tokens : List TokenRow) (token action : String)
    (now now' : Int) (tok : TokenRow)
    (hne : jsTrim token ≠ "")
    (hfind : tokens.find? (fun row => row.token == jsTrim token) = some tok)
    (hact : tok.action = action) (hused : tok.used_at = none) :
    tokenValidate (tokenMarkUsed tokens token now).2 token action now' =
      ConsumeResult.alreadyUsed := by
  have hfind2 := find?_mark_used tokens token now tok hfind hused
  simp [tokenValidate, hne, hfind2, hact]

theorem mark_after_mark (tokens : List TokenRow) (token : String)
    (now now' : Int) :
    (tokenMarkUsed (tokenMarkUsed tokens token now).2 token now').1 = false := by
  simp only [tokenMarkUsed, updateWhere]
  have hnil : ((tokens.map fun x => if x.token == jsTrim token && x.used_at == none
      then { x with used_at := some now } else x).filter
      (fun x => x.token == jsTrim token && x.used_at == none)) = [] := by
    rw [List.filter_eq_nil_iff]
    intro a ha
    obtain ⟨y, hy, rfl⟩ := List.mem_map.mp ha
    by_cases hp : (y.token == jsTrim token && y.used_at == none) = true
    · simp [hp]
    · have hp' : (y.token == jsTrim token && y.used_at == none) = false := by
        simpa using hp
      simp [hp']
  rw [hnil]
  rfl

theorem consume_ok_eq (tokens : List TokenRow) (token action : String)
    (now : Int) (tok : TokenRow)
    (hne : jsTrim token ≠ "")
    (hfind : tokens.find? (fun row => row.token == jsTrim token) = some tok)
    (hact : tok.action = action) (hused : tok.used_at = none)
    (hexp : ¬ tok.expires_at < now) :
    consumeOwnerToken tokens token action now =
      (ConsumeResult.ok tok.restaurant_id tok.reservation_pk_id,
        (tokenMarkUsed tokens token now).2) := by
  have hv := validate_ok tokens token action now tok hne hfind hact hused hexp
  have hm := mark_ok tokens token now tok hfind hused
  simp [consumeOwnerToken, hv, hm]

theorem consume_after_ok (tokens : List TokenRow) (token action : String)
    (now now' : Int) (tok : TokenRow)
    (hne : jsTrim token ≠ "")
    (hfind : tokens.find? (fun row => row.token == jsTrim token) = some tok)
    (hact : tok.action = action) (hused : tok.used_at = none) :
    consumeOwnerToken (tokenMarkUsed tokens token now).2 token action now' =
      (ConsumeResult.alreadyUsed, (tokenMarkUsed tokens token now).2) := by
  have hv := validate_after_mark tokens token action now now' tok hne hfind hact hused
  simp [consumeOwnerToken, hv]

theorem finish_ok (tokens : List TokenRow) (token : String) (now : Int)
    (tok : TokenRow) (rid pk : Nat)
    (hfind : tokens.find? (fun row => row.token == jsTrim token) = some tok)
    (hused : tok.used_at = none) :
    finishConsume (ConsumeResult.ok rid pk) tokens token now =
      (ConsumeResult.ok rid pk, (tokenMarkUsed tokens token now).2) := by
  have hm := mark_ok tokens token now tok hfind hused
  simp [finishConsume, hm]

theorem finish_after_ok (tokens : List TokenRow) (token : String)
    (now now' : Int) (rid pk : Nat) :
    (finishConsume (ConsumeResult.ok rid pk) (tokenMarkUsed tokens token now).2
        token now').1 = ConsumeResult.alreadyUsed := by
  have hm := mark_after_mark tokens token now now'
  simp [finishConsume, hm]

/-- **C5**: `consumeOwnerToken` validates in source order — unknown token:
NotFound; wrong tagged action: ActionMismatch (even if also used or expired);
non-null `used_at`: AlreadyUsed (even if also expired); past expiry: Expired —
and for a valid token the mark-used step is the conditional update
"set used_at where used_at is null", so of two consumptions (sequential, or
concurrent under every read/update interleaving) exactly one succeeds and the
other reports AlreadyUsed. -/
theorem C5_token_validation_order_and_single_use :
    (∀ (tokens : List TokenRow) (token action : String) (now : Int),
      jsTrim token ≠ "" →
      tokens.find? (fun row => row.token == jsTrim token) = none →
      consumeOwnerToken tokens token action now = (ConsumeResult.notFound, tokens)) ∧
    (∀ (tokens : List TokenRow) (token action : String) (now : Int) (tok : TokenRow),
      jsTrim token ≠ "" →
      tokens.find? (fun row => row.token == jsTrim token) = some tok →
      tok.action ≠ action →
      consumeOwnerToken tokens token action now = (ConsumeResult.actionMismatch, tokens)) ∧
    (∀ (tokens : List TokenRow) (token action : String) (now : Int) (tok : TokenRow),
      jsTrim token ≠ "" →
      tokens.find? (fun row => row.token == jsTrim token) = some tok →
      tok.action = action → tok.used_at.isSome = true →
      consumeOwnerToken tokens token action now = (ConsumeResult.alreadyUsed, tokens)) ∧
    (∀ (tokens : List TokenRow) (token action : String) (now : Int) (tok : TokenRow),
      jsTrim token ≠ "" →
      tokens.find? (fun row => row.token == jsTrim token) = some tok →
      tok.action = action → tok.used_at = none → tok.expires_at < now →
      consumeOwnerToken tokens token action now = (ConsumeResult.expired, tokens)) ∧
    (∀ (tokens : List TokenRow) (token action : String) (now : Int) (tok : TokenRow),
      jsTrim token ≠ "" →
      tokens.find? (fun row => row.token == jsTrim token) = some tok →
      tok.action = action → tok.used_at = none → ¬ tok.expires_at < now →
      (consumeOwnerToken tokens token action now).1 =
        ConsumeResult.ok tok.restaurant_id tok.reservation_pk_id ∧
      (consumeOwnerToken (consumeOwnerToken tokens token action now).2
          token action now).1 = ConsumeResult.alreadyUsed ∧
      (∀ σ : Sched,
        ((runTwoConsume σ tokens token action now).1 =
            ConsumeResult.ok tok.restaurant_id tok.reservation_pk_id ∧
          (runTwoConsume σ tokens token action now).2.1 = ConsumeResult.alreadyUsed) ∨
        ((runTwoConsume σ tokens token action now).1 = ConsumeResult.alreadyUsed ∧
          (runTwoConsume σ tokens token action now).2.1 =
            ConsumeResult.ok tok.restaurant_id tok.reservation_pk_id))) := by
  refine ⟨?_, ?_, ?_, ?_, ?_⟩
  · intro tokens token action now hne hfind
    simp [consumeOwnerToken, tokenValidate, hne, hfind]
  · intro tokens token action now tok hne hfind hact
    simp [consumeOwnerToken, tokenValidate, hne, hfind, hact]
  · intro tokens token action now tok hne hfind hact hused
    simp [consumeOwnerToken, tokenValidate, hne, hfind, hact, hused]
  · intro tokens token action now tok hne hfind hact hused hexp
    simp [consumeOwnerToken, tokenValidate, hne, hfind, hact, hused, hexp]
  · intro tokens token action now tok hne hfind hact hused hexp
    have hcons := consume_ok_eq tokens token action now tok hne hfind hact hused hexp
    have hafter := consume_after_ok tokens token action now now tok hne hfind hact hused
    have hv := validate_ok tokens token action now tok hne hfind hact hused hexp
    have hfin := finish_ok tokens token now tok tok.restaurant_id
      tok.reservation_pk_id hfind hused
    have hfin2 := finish_after_ok tokens token now now tok.restaurant_id
      tok.reservation_pk_id
    refine ⟨by rw [hcons], by rw [hcons, hafter], ?_⟩
    intro σ
    cases σ
    · left; rw [runTwoConsume, hcons, hafter]
      exact ⟨rfl, rfl⟩
    · left
      simp only [runTwoConsume, hv, hfin, hfin2]
      exact ⟨trivial, trivial⟩
    · right
      simp only [runTwoConsume, hv, hfin, hfin2]
      exact ⟨trivial, trivial⟩
    · left
      simp only [runTwoConsume, hv, hfin, hfin2]
      exact ⟨trivial, trivial⟩
    · right
      simp only [runTwoConsume, hv, hfin, hfin2]
      exact ⟨trivial, trivial⟩
    · right; rw [runTwoConsume, hcons, hafter]
      exact ⟨rfl, rfl⟩


/-- Witness for C5 on a one-token store, exercising the valid-token clause at
the ABBA interleaving. -/
theorem C5_token_validation_order_and_single_use_witness :
    (jsTrim "abc" ≠ "" ∧
      List.find? (fun row => row.token == jsTrim "abc")
        [TokenRow.mk "abc" 1 7 "confirm" 100 none] =
        some (TokenRow.mk "abc" 1 7 "confirm" 100 none) ∧
      (TokenRow.mk "abc" 1 7 "confirm" 100 none).action = "confirm" ∧
      (TokenRow.mk "abc" 1 7 "confirm" 100 none).used_at = none ∧
      ¬ (TokenRow.mk "abc" 1 7 "confirm" 100 none).expires_at < (50 : Int)) ∧
    ((consumeOwnerToken [TokenRow.mk "abc" 1 7 "confirm" 100 none]
        "abc" "confirm" 50).1 = ConsumeResult.ok 1 7 ∧
      (consumeOwnerToken
          (consumeOwnerToken [TokenRow.mk "abc" 1 7 "confirm" 100 none]
            "abc" "confirm" 50).2 "abc" "confirm" 50).1 =
        ConsumeResult.alreadyUsed ∧
      (((runTwoConsume Sched.ABBA [TokenRow.mk "abc" 1 7 "confirm" 100 none]
            "abc" "confirm" 50).1 = ConsumeResult.ok 1 7 ∧
          (runTwoConsume Sched.ABBA [TokenRow.mk "abc" 1 7 "confirm" 100 none]
            "abc" "confirm" 50).2.1 = ConsumeResult.alreadyUsed) ∨
        ((runTwoConsume Sched.ABBA [TokenRow.mk "abc" 1 7 "confirm" 100 none]
            "abc" "confirm" 50).1 = ConsumeResult.alreadyUsed ∧
          (runTwoConsume Sched.ABBA [TokenRow.mk "abc" 1 7 "confirm" 100 none]
            "abc" "confirm" 50).2.1 = ConsumeResult.ok 1 7))) :=
  have h5 := C5_token_validation_order_and_single_use.2.2.2.2
    [TokenRow.mk "abc" 1 7 "confirm" 100 none] "abc" "confirm" 50
    (TokenRow.mk "abc" 1 7 "confirm" 100 none)
    (by decide) (by decide) rfl rfl (by decide)
  ⟨⟨by decide, by decide, rfl, rfl, by decide⟩,
   h5.1, h5.2.1, h5.2.2 Sched.ABBA⟩

/-! ## Claim C10: click links burn the token before the transition -/

/-- Rows matching no predicate occurrence: the conditional update returns no
rows and leaves the table unchanged. -/
theorem updateWhere_nomatch {α : Type} (p : α → Bool) (f : α → α) (l : List α)
    (h : ∀ x ∈ l, p x = false) : updateWhere p f l = ([], l) := by
  have h1 : l.filter p = [] := List.filter_eq_nil_iff.mpr
    (by intro a ha; simp [h a ha])
  have h2 : (l.map fun x => if p x then f x else x) = l := by
    have h2' : (l.map fun x => if p x then f x else x) = l.map id :=
      List.map_congr_left (fun x hx => by simp [h x hx])
    rw [h2', List.map_id]
  simp [updateWhere, h1, h2]

/-- **C10**: both public click-link endpoints consume the token before
attempting the transition: for a valid unexpired token — confirm token on
GET /o/confirm/:token, decline token on GET /o/decline/:token — whose
reservation is no longer Pending, the endpoint answers "already decided", the
reservation table is untouched, yet the token's `used_at` is permanently set —
a retry of the same link fails with token-already-used and changes nothing. -/
theorem C10_click_link_burns_token (db : DB) (token : String) (now now2 : Int)
    (tok : TokenRow) (r : Reservation)
    (hne : jsTrim token ≠ "")
    (hfind : db.tokens.find? (fun row => row.token == jsTrim token) = some tok)
    (hused : tok.used_at = none)
    (hexp : ¬ tok.expires_at < now)
    (hmem : r ∈ db.reservations)
    (hid : r.id = tok.reservation_pk_id) (hrid : r.restaurant_id = tok.restaurant_id)
    (hnp : r.status ≠ Status.Pending)
    (huniq : ∀ x ∈ db.reservations, x.id = tok.reservation_pk_id →
      x.restaurant_id = tok.restaurant_id → x = r) :
    (tok.action = "confirm" →
      (clickConfirm token now db).1 = ClickResult.alreadyDecided ∧
      (clickConfirm token now db).2.reservations = db.reservations ∧
      ((clickConfirm token now db).2.tokens.find?
          (fun row => row.token == jsTrim token) =
        some { tok with used_at := some now }) ∧
      (clickConfirm token now2 (clickConfirm token now db).2).1 =
        ClickResult.tokenError ConsumeResult.alreadyUsed ∧
      (clickConfirm token now2 (clickConfirm token now db).2).2 =
        (clickConfirm token now db).2) ∧
    (tok.action = "decline" →
      (clickDecline token now db).1 = ClickResult.alreadyDecided ∧
      (clickDecline token now db).2.reservations = db.reservations ∧
      ((clickDecline token now db).2.tokens.find?
          (fun row => row.token == jsTrim token) =
        some { tok with used_at := some now }) ∧
      (clickDecline token now2 (clickDecline token now db).2).1 =
        ClickResult.tokenError ConsumeResult.alreadyUsed ∧
      (clickDecline token now2 (clickDecline token now db).2).2 =
        (clickDecline token now db).2) := by
  have hpredall : ∀ x ∈ db.reservations,
      (x.id == tok.reservation_pk_id && x.restaurant_id == tok.restaurant_id &&
        x.status == Status.Pending) = false := by
    intro x hx
    by_cases h1 : x.id = tok.reservation_pk_id
    · by_cases h2 : x.restaurant_id = tok.restaurant_id
      · have : x = r := huniq x hx h1 h2
        subst this
        simp [h1, h2, hnp]
      · simp [h2]
    · simp [h1]
  have hmarked := find?_mark_used db.tokens token now tok hfind hused
  constructor
  · intro hact
    have hcons := consume_ok_eq db.tokens token "confirm" now tok hne hfind hact hused hexp
    have hupd := updateWhere_nomatch _ (fun r => { r with status := Status.Confirmed })
      db.reservations hpredall
    have hclick : clickConfirm token now db =
        (ClickResult.alreadyDecided,
          { db with tokens := (tokenMarkUsed db.tokens token now).2 }) := by
      simp [clickConfirm, hcons, hupd]
    have hafter := consume_after_ok db.tokens token "confirm" now now2 tok hne hfind hact hused
    refine ⟨by rw [hclick], by rw [hclick], by rw [hclick]; exact hmarked, ?_, ?_⟩
    · rw [hclick]
      simp [clickConfirm, hafter]
    · rw [hclick]
      simp [clickConfirm, hafter]
  · intro hact
    have hcons := consume_ok_eq db.tokens token "decline" now tok hne hfind hact hused hexp
    have hupd := updateWhere_nomatch _ (fun r => { r with status := Status.Declined })
      db.reservations hpredall
    have hclick : clickDecline token now db =
        (ClickResult.alreadyDecided,
          { db with tokens := (tokenMarkUsed db.tokens token now).2 }) := by
      simp [clickDecline, hcons, hupd]
    have hafter := consume_after_ok db.tokens token "decline" now now2 tok hne hfind hact hused
    refine ⟨by rw [hclick], by rw [hclick], by rw [hclick]; exact hmarked, ?_, ?_⟩
    · rw [hclick]
      simp [clickDecline, hafter]
    · rw [hclick]
      simp [clickDecline, hafter]


/-- Witness for C10: one Confirmed reservation; a fresh confirm token "abc"
exercises the /o/confirm half, a fresh decline token "def" the /o/decline
half. -/
theorem C10_click_link_burns_token_witness :
    (jsTrim "abc" ≠ "" ∧
      List.find? (fun row => row.token == jsTrim "abc")
        [TokenRow.mk "abc" 1 7 "confirm" 100 none] =
        some (TokenRow.mk "abc" 1 7 "confirm" 100 none) ∧
      jsTrim "def" ≠ "" ∧
      List.find? (fun row => row.token == jsTrim "def")
        [TokenRow.mk "def" 1 7 "decline" 100 none] =
        some (TokenRow.mk "def" 1 7 "decline" 100 none) ∧
      ¬ (100 : Int) < 50 ∧
      (Reservation.mk 7 1 Status.Confirmed "2026-10-13" "20:00" "355" "A" 2
          none none).status ≠ Status.Pending) ∧
    ((clickConfirm "abc" 50
        (DB.mk [Reservation.mk 7 1 Status.Confirmed "2026-10-13" "20:00" "355" "A" 2 none none]
          [TokenRow.mk "abc" 1 7 "confirm" 100 none] [])).1 =
      ClickResult.alreadyDecided ∧
     (clickConfirm "abc" 50
        (DB.mk [Reservation.mk 7 1 Status.Confirmed "2026-10-13" "20:00" "355" "A" 2 none none]
          [TokenRow.mk "abc" 1 7 "confirm" 100 none] [])).2.reservations =
      [Reservation.mk 7 1 Status.Confirmed "2026-10-13" "20:00" "355" "A" 2 none none] ∧
     ((clickConfirm "abc" 50
        (DB.mk [Reservation.mk 7 1 Status.Confirmed "2026-10-13" "20:00" "355" "A" 2 none none]
          [TokenRow.mk "abc" 1 7 "confirm" 100 none] [])).2.tokens.find?
        (fun row => row.token == jsTrim "abc") =
      some { TokenRow.mk "abc" 1 7 "confirm" 100 none with used_at := some 50 }) ∧
     (clickConfirm "abc" 60 ((clickConfirm "abc" 50
        (DB.mk [Reservation.mk 7 1 Status.Confirmed "2026-10-13" "20:00" "355" "A" 2 none none]
          [TokenRow.mk "abc" 1 7 "confirm" 100 none] [])).2)).1 =
      ClickResult.tokenError ConsumeResult.alreadyUsed ∧
     (clickConfirm "abc" 60 ((clickConfirm "abc" 50
        (DB.mk [Reservation.mk 7 1 Status.Confirmed "2026-10-13" "20:00" "355" "A" 2 none none]
          [TokenRow.mk "abc" 1 7 "confirm" 100 none] [])).2)).2 =
      (clickConfirm "abc" 50
        (DB.mk [Reservation.mk 7 1 Status.Confirmed "2026-10-13" "20:00" "355" "A" 2 none none]
          [TokenRow.mk "abc" 1 7 "confirm" 100 none] [])).2) ∧
    ((clickDecline "def" 50
        (DB.mk [Reservation.mk 7 1 Status.Confirmed "2026-10-13" "20:00" "355" "A" 2 none none]
          [TokenRow.mk "def" 1 7 "decline" 100 none] [])).1 =
      ClickResult.alreadyDecided ∧
     (clickDecline "def" 50
        (DB.mk [Reservation.mk 7 1 Status.Confirmed "2026-10-13" "20:00" "355" "A" 2 none none]
          [TokenRow.mk "def" 1 7 "decline" 100 none] [])).2.reservations =
      [Reservation.mk 7 1 Status.Confirmed "2026-10-13" "20:00" "355" "A" 2 none none] ∧
     ((clickDecline "def" 50
        (DB.mk [Reservation.mk 7 1 Status.Confirmed "2026-10-13" "20:00" "355" "A" 2 none none]
          [TokenRow.mk "def" 1 7 "decline" 100 none] [])).2.tokens.find?
        (fun row => row.token == jsTrim "def") =
      some { TokenRow.mk "def" 1 7 "decline" 100 none with used_at := some 50 }) ∧
     (clickDecline "def" 60 ((clickDecline "def" 50
        (DB.mk [Reservation.mk 7 1 Status.Confirmed "2026-10-13" "20:00" "355" "A" 2 none none]
          [TokenRow.mk "def" 1 7 "decline" 100 none] [])).2)).1 =
      ClickResult.tokenError ConsumeResult.alreadyUsed ∧
     (clickDecline "def" 60 ((clickDecline "def" 50
        (DB.mk [Reservation.mk 7 1 Status.Confirmed "2026-10-13" "20:00" "355" "A" 2 none none]
          [TokenRow.mk "def" 1 7 "decline" 100 none] [])).2)).2 =
      (clickDecline "def" 50
        (DB.mk [Reservation.mk 7 1 Status.Confirmed "2026-10-13" "20:00" "355" "A" 2 none none]
          [TokenRow.mk "def" 1 7 "decline" 100 none] [])).2) :=
  ⟨⟨by decide, by decide, by decide, by decide, by decide, by decide⟩,
   (C10_click_link_burns_token
    (DB.mk [Reservation.mk 7 1 Status.Confirmed "2026-10-13" "20:00" "355" "A" 2 none none]
      [TokenRow.mk "abc" 1 7 "confirm" 100 none] [])
    "abc" 50 60 (TokenRow.mk "abc" 1 7 "confirm" 100 none)
    (Reservation.mk 7 1 Status.Confirmed "2026-10-13" "20:00" "355" "A" 2 none none)
    (by decide) (by decide) rfl (by decide) (by decide) rfl rfl (by decide)
    (by decide)).1 rfl,
   (C10_click_link_burns_token
    (DB.mk [Reservation.mk 7 1 Status.Confirmed "2026-10-13" "20:00" "355" "A" 2 none none]
      [TokenRow.mk "def" 1 7 "decline" 100 none] [])
    "def" 50 60 (TokenRow.mk "def" 1 7 "decline" 100 none)
    (Reservation.mk 7 1 Status.Confirmed "2026-10-13" "20:00" "355" "A" 2 none none)
    (by decide) (by decide) rfl (by decide) (by decide) rfl rfl (by decide)
    (by decide)).2 rfl⟩

/-! ## Claim C1: terminal immutability -/

theorem mem_sweepInsert (r x : Reservation) (l : List Reservation) :
    x ∈ sweepInsert r l ↔ x = r ∨ x ∈ l := by
  induction l with
  | nil => simp [sweepInsert]
  | cons y ys ih =>
    simp only [sweepInsert]
    split
    · simp [or_comm, or_left_comm]
    · simp [ih]
      tauto

theorem mem_sweepSort (x : Reservation) (l : List Reservation) :
    x ∈ sweepSort l ↔ x ∈ l := by
  induction l with
  | nil => simp [sweepSort]
  | cons y ys ih => simp [sweepSort, mem_sweepInsert, ih]

theorem mem_autoCloseSelect (today cutoff : String) (l : List Reservation)
    (s : Reservation) (h : s ∈ autoCloseSelect today cutoff l) :
    s ∈ l ∧ sweepSelPred today cutoff s = true := by
  have h1 : s ∈ sweepSort (l.filter (sweepSelPred today cutoff)) :=
    List.mem_of_mem_take h
  have h2 : s ∈ l.filter (sweepSelPred today cutoff) :=
    (mem_sweepSort _ _).mp h1
  exact ⟨(List.mem_filter.mp h2).1, (List.mem_filter.mp h2).2⟩

theorem process_state_step (s : Reservation) (rest : List Reservation)
    (ts : Nat) (db : DB) :
    (autoCloseProcess (s :: rest) ts db).2 =
      (autoCloseProcess rest ts
        { db with reservations :=
            (updateWhere (sweepRowPred s) (sweepRowUpd ts s) db.reservations).2 }).2 := by
  simp only [autoCloseProcess]
  split
  · rfl
  · split
    · rfl
    · rfl

theorem process_keeps_nonmatching (sel : List Reservation) (ts : Nat) (db : DB)
    (x : Reservation) (hx : x ∈ db.reservations)
    (hnm : ∀ s ∈ sel, sweepRowPred s x = false) :
    x ∈ (autoCloseProcess sel ts db).2.reservations := by
  induction sel generalizing db with
  | nil => simpa [autoCloseProcess] using hx
  | cons s rest ih =>
    rw [process_state_step]
    apply ih
    · have hpx : sweepRowPred s x = false := hnm s (by simp)
      have : (if sweepRowPred s x then sweepRowUpd ts s x else x) ∈
          (updateWhere (sweepRowPred s) (sweepRowUpd ts s) db.reservations).2 :=
        List.mem_map_of_mem _ hx
      simpa [hpx] using this
    · intro s' hs'
      exact hnm s' (by simp [hs'])

theorem terminal_not_selected_pred (x s : Reservation)
    (hterm : x.status.isTerminal = true)
    (hs : s.status = Status.Confirmed ∨ s.status = Status.Pending) :
    sweepRowPred s x = false := by
  have : x.status ≠ s.status := by
    rcases hs with h | h <;> rw [h] <;> intro hc <;>
      rw [hc] at hterm <;> simp [Status.isTerminal] at hterm
  simp [sweepRowPred, this]

theorem autoClose_keeps_terminal (today nowHHMI : String) (ts : Nat) (db : DB)
    (x : Reservation) (hx : x ∈ db.reservations)
    (hterm : x.status.isTerminal = true) :
    x ∈ (autoClose today nowHHMI ts db).2.reservations := by
  unfold autoClose
  apply process_keeps_nonmatching _ _ _ _ hx
  intro s hs
  have hsel := (mem_autoCloseSelect _ _ _ _ hs).2
  have : s.status = Status.Confirmed ∨ s.status = Status.Pending := by
    simp only [sweepSelPred, Bool.and_eq_true, Bool.or_eq_true, beq_iff_eq] at hsel
    tauto
  exact terminal_not_selected_pred x s hterm this

theorem status_ne_of_terminal (r : Reservation) (hterm : r.status.isTerminal = true) :
    r.status ≠ Status.Pending ∧ r.status ≠ Status.Confirmed := by
  cases h : r.status <;> simp [Status.isTerminal, h] at hterm ⊢

theorem pend_pred_false (db : List Reservation) (rid id : Nat) (r : Reservation)
    (hterm : r.status.isTerminal = true)
    (huniq : ∀ x ∈ db, x.id = id → x.restaurant_id = rid → x = r) :
    ∀ x ∈ db, (x.id == id && x.restaurant_id == rid &&
      x.status == Status.Pending) = false := by
  intro x hx
  by_cases h1 : x.id = id
  · by_cases h2 : x.restaurant_id = rid
    · have hxr : x = r := huniq x hx h1 h2
      subst hxr
      simp [h1, h2, (status_ne_of_terminal x hterm).1]
    · simp [h2]
  · simp [h1]

theorem ownerConfirm_terminal (db : List Reservation) (rid id : Nat)
    (r : Reservation)
    (hfind : findRes rid id db = some r)
    (hterm : r.status.isTerminal = true)
    (huniq : ∀ x ∈ db, x.id = id → x.restaurant_id = rid → x = r) :
    ownerConfirm rid id db = (.alreadyDecided r.status, db) := by
  have hupd := updateWhere_nomatch _ (fun r => { r with status := Status.Confirmed })
    db (pend_pred_false db rid id r hterm huniq)
  simp [ownerConfirm, hupd, hfind]

theorem ownerDecline_terminal (db : List Reservation) (rid id : Nat)
    (r : Reservation)
    (hfind : findRes rid id db = some r)
    (hterm : r.status.isTerminal = true)
    (huniq : ∀ x ∈ db, x.id = id → x.restaurant_id = rid → x = r) :
    ownerDecline rid id db = (.alreadyDecided r.status, db) := by
  have hupd := updateWhere_nomatch _ (fun r => { r with status := Status.Declined })
    db (pend_pred_false db rid id r hterm huniq)
  simp [ownerDecline, hupd, hfind]

theorem close_terminal (db : DB) (rid id : Nat) (r : Reservation)
    (action : String) (now : Nat) (statsOk : Bool)
    (hfind : findRes rid id db.reservations = some r)
    (hterm : r.status.isTerminal = true)
    (hsome : (mapFinalStatus action).isSome = true) :
    (closeReservationByOwner rid id action now statsOk db).2 = db ∧
    ((closeReservationByOwner rid id action now statsOk db).1 = .alreadyClosed r ∨
     (closeReservationByOwner rid id action now statsOk db).1 = .wrongState r) := by
  have haction : action = "complete" ∨ action = "no-show" ∨ action = "cancel" := by
    by_cases h1 : action = "complete"
    · exact Or.inl h1
    by_cases h2 : action = "no-show"
    · exact Or.inr (Or.inl h2)
    by_cases h3 : action = "cancel"
    · exact Or.inr (Or.inr h3)
    simp [mapFinalStatus, h1, h2, h3] at hsome
  have hst : r.status = Status.Declined ∨ r.status = Status.Completed ∨
      r.status = Status.NoShow ∨ r.status = Status.Cancelled := by
    cases h : r.status <;> simp [Status.isTerminal, h] at hterm ⊢
  rcases haction with rfl | rfl | rfl <;>
    rcases hst with h | h | h | h <;>
    simp [closeReservationByOwner, mapFinalStatus, hfind, h]

theorem clickConfirm_nonPending (db : DB) (token : String) (now : Int)
    (tok : TokenRow) (r : Reservation)
    (hne : jsTrim token ≠ "")
    (hfind : db.tokens.find? (fun row => row.token == jsTrim token) = some tok)
    (hact : tok.action = "confirm") (hused : tok.used_at = none)
    (hexp : ¬ tok.expires_at < now)
    (hterm : r.status.isTerminal = true)
    (huniq : ∀ x ∈ db.reservations, x.id = tok.reservation_pk_id →
      x.restaurant_id = tok.restaurant_id → x = r) :
    (clickConfirm token now db).1 = ClickResult.alreadyDecided ∧
    (clickConfirm token now db).2.reservations = db.reservations := by
  have hcons := consume_ok_eq db.tokens token "confirm" now tok hne hfind hact hused hexp
  have hupd := updateWhere_nomatch _ (fun r => { r with status := Status.Confirmed })
    db.reservations
    (pend_pred_false db.reservations tok.restaurant_id tok.reservation_pk_id r hterm huniq)
  constructor <;> simp [clickConfirm, hcons, hupd]

theorem clickDecline_nonPending (db : DB) (token : String) (now : Int)
    (tok : TokenRow) (r : Reservation)
    (hne : jsTrim token ≠ "")
    (hfind : db.tokens.find? (fun row => row.token == jsTrim token) = some tok)
    (hact : tok.action = "decline") (hused : tok.used_at = none)
    (hexp : ¬ tok.expires_at < now)
    (hterm : r.status.isTerminal = true)
    (huniq : ∀ x ∈ db.reservations, x.id = tok.reservation_pk_id →
      x.restaurant_id = tok.restaurant_id → x = r) :
    (clickDecline token now db).1 = ClickResult.alreadyDecided ∧
    (clickDecline token now db).2.reservations = db.reservations := by
  have hcons := consume_ok_eq db.tokens token "decline" now tok hne hfind hact hused hexp
  have hupd := updateWhere_nomatch _ (fun r => { r with status := Status.Declined })
    db.reservations
    (pend_pred_false db.reservations tok.restaurant_id tok.reservation_pk_id r hterm huniq)
  constructor <;> simp [clickDecline, hcons, hupd]

/-- **C1 (amended)**: in the final implementation (index_FINAL_FULL.js), no
transition operation — owner confirm/decline, owner complete/no-show/cancel,
click-link confirm/decline, or the auto-close sweep — ever changes the stored
status of a reservation already in a terminal state; each such attempt is
rejected with an already-closed / conflict result carrying the current record
or status. (The legacy `POST /reservations/:id/approve` of src/index.js,
which the original claim also covers, violates this — see the
counterexample.) -/
theorem C1_terminal_immutability (db : DB) (rid id : Nat) (r : Reservation)
    (hfind : findRes rid id db.reservations = some r)
    (hterm : r.status.isTerminal = true)
    (huniq : ∀ x ∈ db.reservations, x.id = id → x.restaurant_id = rid → x = r) :
    ownerConfirm rid id db.reservations =
      (OwnerDecisionResult.alreadyDecided r.status, db.reservations) ∧
    ownerDecline rid id db.reservations =
      (OwnerDecisionResult.alreadyDecided r.status, db.reservations) ∧
    (∀ (action : String) (now : Nat) (statsOk : Bool),
      (mapFinalStatus action).isSome = true →
      (closeReservationByOwner rid id action now statsOk db).2 = db ∧
      ((closeReservationByOwner rid id action now statsOk db).1 =
          CloseResult.alreadyClosed r ∨
        (closeReservationByOwner rid id action now statsOk db).1 =
          CloseResult.wrongState r)) ∧
    (∀ (token : String) (now : Int) (tok : TokenRow),
      jsTrim token ≠ "" →
      db.tokens.find? (fun row => row.token == jsTrim token) = some tok →
      tok.used_at = none → ¬ tok.expires_at < now →
      tok.reservation_pk_id = id → tok.restaurant_id = rid →
      (tok.action = "confirm" →
        (clickConfirm token now db).1 = ClickResult.alreadyDecided ∧
        (clickConfirm token now db).2.reservations = db.reservations) ∧
      (tok.action = "decline" →
        (clickDecline token now db).1 = ClickResult.alreadyDecided ∧
        (clickDecline token now db).2.reservations = db.reservations)) ∧
    (∀ (today nowHHMI : String) (ts : Nat),
      r ∈ (autoClose today nowHHMI ts db).2.reservations) := by
  refine ⟨ownerConfirm_terminal _ _ _ _ hfind hterm huniq,
    ownerDecline_terminal _ _ _ _ hfind hterm huniq,
    fun action now statsOk hsome =>
      close_terminal db rid id r action now statsOk hfind hterm hsome,
    ?_, ?_⟩
  · intro token now tok hne hfindTok hused hexp hpk hrid
    have huniq' : ∀ x ∈ db.reservations, x.id = tok.reservation_pk_id →
        x.restaurant_id = tok.restaurant_id → x = r := by
      intro x hx h1 h2
      exact huniq x hx (by rw [← hpk]; exact h1) (by rw [← hrid]; exact h2)
    exact ⟨fun hact =>
        clickConfirm_nonPending db token now tok r hne hfindTok hact hused hexp hterm huniq',
      fun hact =>
        clickDecline_nonPending db token now tok r hne hfindTok hact hused hexp hterm huniq'⟩
  · intro today nowHHMI ts
    exact autoClose_keeps_terminal today nowHHMI ts db r
      (List.mem_of_find?_eq_some hfind) hterm

/-- Witness for C1 (amended) on a store holding one Completed reservation. -/
theorem C1_terminal_immutability_witness :
    (findRes 1 1 [Reservation.mk 1 1 Status.Completed "2026-10-10" "20:00" "355" "A" 2
        (some 5) (some "owner_complete")] =
      some (Reservation.mk 1 1 Status.Completed "2026-10-10" "20:00" "355" "A" 2
        (some 5) (some "owner_complete")) ∧
      (Reservation.mk 1 1 Status.Completed "2026-10-10" "20:00" "355" "A" 2
        (some 5) (some "owner_complete")).status.isTerminal = true ∧
      (mapFinalStatus "complete").isSome = true) ∧
    ownerConfirm 1 1 [Reservation.mk 1 1 Status.Completed "2026-10-10" "20:00" "355" "A" 2
        (some 5) (some "owner_complete")] =
      (OwnerDecisionResult.alreadyDecided Status.Completed,
        [Reservation.mk 1 1 Status.Completed "2026-10-10" "20:00" "355" "A" 2
          (some 5) (some "owner_complete")]) ∧
    (closeReservationByOwner 1 1 "complete" 99 true
        (DB.mk [Reservation.mk 1 1 Status.Completed "2026-10-10" "20:00" "355" "A" 2
          (some 5) (some "owner_complete")] [] [])).2 =
      DB.mk [Reservation.mk 1 1 Status.Completed "2026-10-10" "20:00" "355" "A" 2
        (some 5) (some "owner_complete")] [] [] ∧
    ((closeReservationByOwner 1 1 "complete" 99 true
        (DB.mk [Reservation.mk 1 1 Status.Completed "2026-10-10" "20:00" "355" "A" 2
          (some 5) (some "owner_complete")] [] [])).1 =
      CloseResult.alreadyClosed (Reservation.mk 1 1 Status.Completed "2026-10-10" "20:00"
        "355" "A" 2 (some 5) (some "owner_complete")) ∨
     (closeReservationByOwner 1 1 "complete" 99 true
        (DB.mk [Reservation.mk 1 1 Status.Completed "2026-10-10" "20:00" "355" "A" 2
          (some 5) (some "owner_complete")] [] [])).1 =
      CloseResult.wrongState (Reservation.mk 1 1 Status.Completed "2026-10-10" "20:00"
        "355" "A" 2 (some 5) (some "owner_complete"))) :=
  have h := C1_terminal_immutability
    (DB.mk [Reservation.mk 1 1 Status.Completed "2026-10-10" "20:00" "355" "A" 2
        (some 5) (some "owner_complete")] [] [])
    1 1 (Reservation.mk 1 1 Status.Completed "2026-10-10" "20:00" "355" "A" 2
        (some 5) (some "owner_complete"))
    (by decide) (by decide) (by decide)
  ⟨⟨by decide, by decide, by decide⟩, h.1,
    (h.2.2.1 "complete" 99 true (by decide)).1,
    (h.2.2.1 "complete" 99 true (by decide)).2⟩

/-- **C1 counterexample**: the legacy owner-confirm endpoint
`POST /reservations/:id/approve` (src/index.js) updates with no condition on
the previous status: applied to a reservation already Completed (terminal),
it overwrites the stored status with Confirmed and reports success — so the
claim as stated, which includes owner confirm over the cited endpoint, is
false. -/
theorem C1_counterexample :
    (Reservation.mk 1 1 Status.Completed "2026-10-10" "20:00" "355" "A" 2
      (some 5) (some "owner_complete")).status.isTerminal = true ∧
    (approveReservation 1 1
        [Reservation.mk 1 1 Status.Completed "2026-10-10" "20:00" "355" "A" 2
          (some 5) (some "owner_complete")]).1 =
      ApproveResult.approved (Reservation.mk 1 1 Status.Confirmed "2026-10-10" "20:00"
        "355" "A" 2 (some 5) (some "owner_complete")) ∧
    (approveReservation 1 1
        [Reservation.mk 1 1 Status.Completed "2026-10-10" "20:00" "355" "A" 2
          (some 5) (some "owner_complete")]).2 =
      [Reservation.mk 1 1 Status.Confirmed "2026-10-10" "20:00" "355" "A" 2
        (some 5) (some "owner_complete")] ∧
    Status.Confirmed ≠ Status.Completed := by
  decide


/-! ## Claim C6: the auto-close sweep -/

theorem subtract_cutoff_spec (nowHHMI : String) (hval : ValidHHMM nowHHMI) :
    subtractMinutesHHMI nowHHMI 120 =
      encodeHHMM ((minutesOfDay nowHHMI - 120) / 60)
        ((minutesOfDay nowHHMI - 120) % 60) ∧
    minutesOfDay (subtractMinutesHHMI nowHHMI 120) = minutesOfDay nowHHMI - 120 := by
  obtain ⟨hh, mm, hhh, hmm, rfl⟩ := hval
  have hnorm := normalize_encode hh mm hhh hmm
  have hmin := minutesOfDay_encode hh mm (by omega) (by omega)
  have htot : hh * 60 + mm - 120 ≤ 23 * 60 + 59 := by omega
  constructor
  · unfold subtractMinutesHHMI
    rw [hnorm]
    simp only [Option.getD_some, hmin]
    rw [if_neg (by omega)]
  · unfold subtractMinutesHHMI
    rw [hnorm]
    simp only [Option.getD_some, hmin]
    rw [if_neg (by omega)]
    rw [minutesOfDay_encode _ _ (by omega) (by omega)]
    omega

theorem process_skip (s : Reservation) (rest : List Reservation) (ts : Nat)
    (db : DB) (h : ∀ x ∈ db.reservations, sweepRowPred s x = false) :
    autoCloseProcess (s :: rest) ts db = autoCloseProcess rest ts db := by
  have hupd := updateWhere_nomatch (sweepRowPred s) (sweepRowUpd ts s)
    db.reservations h
  simp [autoCloseProcess, hupd]

theorem sweepFinal_terminal (s : Reservation) :
    (sweepFinal s).isTerminal = true := by
  unfold sweepFinal
  split <;> rfl

theorem process_applies_transition (s : Reservation) (rest : List Reservation)
    (ts : Nat) (db : DB) (x : Reservation)
    (hx : x ∈ db.reservations) (hmatch : sweepRowPred s x = true)
    (hrest : ∀ s' ∈ rest, s'.status = Status.Confirmed ∨ s'.status = Status.Pending) :
    { x with
      status := if x.status = Status.Confirmed then Status.Completed else Status.NoShow,
      closed_at := some ts, closed_reason := some "auto_close_cron" } ∈
      (autoCloseProcess (s :: rest) ts db).2.reservations := by
  have hxs : x.status = s.status := by
    simp only [sweepRowPred, Bool.and_eq_true, beq_iff_eq] at hmatch
    exact hmatch.2
  have hupd_eq : sweepRowUpd ts s x =
      { x with
        status := if x.status = Status.Confirmed then Status.Completed else Status.NoShow,
        closed_at := some ts, closed_reason := some "auto_close_cron" } := by
    unfold sweepRowUpd sweepFinal
    rw [← hxs]
    by_cases h : x.status = Status.Confirmed <;> simp [h]
  have hy : sweepRowUpd ts s x ∈
      (updateWhere (sweepRowPred s) (sweepRowUpd ts s) db.reservations).2 := by
    simp only [updateWhere]
    have h0 : (if sweepRowPred s x then sweepRowUpd ts s x else x) ∈
        db.reservations.map
          (fun z => if sweepRowPred s z then sweepRowUpd ts s z else z) :=
      List.mem_map_of_mem _ hx
    rwa [if_pos hmatch] at h0
  rw [process_state_step]
  rw [← hupd_eq]
  apply process_keeps_nonmatching _ _ _ _ hy
  intro s' hs'
  apply terminal_not_selected_pred _ _ _ (hrest s' hs')
  have : (sweepRowUpd ts s x).status = sweepFinal s := rfl
  rw [this]
  exact sweepFinal_terminal s

/-- **C6**: the sweep's cutoff is now minus 120 minutes floor-clamped at
"00:00"; the selection contains only reservations still Pending/Confirmed
dated strictly before today or today with time at or before the cutoff; at
most 500 rows are taken per run; a selected row whose stored status changed
concurrently is skipped (no count, no write) without failing the batch; and a
still-matching row receives the conditional transition Confirmed→Completed /
Pending→NoShow with closed_reason 'auto_close_cron' and closed_at set. -/
theorem C6_auto_close_sweep :
    (∀ nowHHMI : String, ValidHHMM nowHHMI →
      subtractMinutesHHMI nowHHMI 120 =
        encodeHHMM ((minutesOfDay nowHHMI - 120) / 60)
          ((minutesOfDay nowHHMI - 120) % 60) ∧
      minutesOfDay (subtractMinutesHHMI nowHHMI 120) =
        minutesOfDay nowHHMI - 120) ∧
    (∀ (today cutoff : String) (l : List Reservation),
      (autoCloseSelect today cutoff l).length ≤ 500) ∧
    (∀ (today cutoff : String) (l : List Reservation) (r : Reservation),
      r ∈ autoCloseSelect today cutoff l →
      (r.status = Status.Confirmed ∨ r.status = Status.Pending) ∧
      (jsLt r.date today = true ∨ (r.date = today ∧ jsLe r.time cutoff = true))) ∧
    (∀ (s : Reservation) (rest : List Reservation) (ts : Nat) (db : DB),
      (∀ x ∈ db.reservations, sweepRowPred s x = false) →
      autoCloseProcess (s :: rest) ts db = autoCloseProcess rest ts db) ∧
    (∀ (s : Reservation) (rest : List Reservation) (ts : Nat) (db : DB)
        (x : Reservation),
      x ∈ db.reservations → sweepRowPred s x = true →
      (∀ s' ∈ rest, s'.status = Status.Confirmed ∨ s'.status = Status.Pending) →
      { x with
        status := if x.status = Status.Confirmed then Status.Completed else Status.NoShow,
        closed_at := some ts, closed_reason := some "auto_close_cron" } ∈
        (autoCloseProcess (s :: rest) ts db).2.reservations) := by
  refine ⟨subtract_cutoff_spec, ?_, ?_, process_skip, process_applies_transition⟩
  · intro today cutoff l
    exact List.length_take_le 500 _
  · intro today cutoff l r hr
    have hsel := (mem_autoCloseSelect _ _ _ _ hr).2
    simp only [sweepSelPred, Bool.and_eq_true, Bool.or_eq_true, beq_iff_eq,
      bne_iff_ne] at hsel
    refine ⟨by tauto, ?_⟩
    rcases hsel.2 with h | ⟨⟨h1, h2⟩, h3⟩
    · exact Or.inl h
    · exact Or.inr ⟨h1, h3⟩

/-- Witness for C6: now "12:30" (cutoff "10:30") and a Confirmed reservation
from yesterday that gets swept to Completed. -/
theorem C6_auto_close_sweep_witness :
    (ValidHHMM "12:30" ∧
      (Reservation.mk 1 1 Status.Confirmed "2026-10-11" "20:00" "355" "A" 2 none none) ∈
        autoCloseSelect "2026-10-12" "10:30"
          [Reservation.mk 1 1 Status.Confirmed "2026-10-11" "20:00" "355" "A" 2 none none] ∧
      sweepRowPred (Reservation.mk 1 1 Status.Confirmed "2026-10-11" "20:00" "355" "A" 2 none none)
        (Reservation.mk 1 1 Status.Confirmed "2026-10-11" "20:00" "355" "A" 2 none none) = true) ∧
    (subtractMinutesHHMI "12:30" 120 =
      encodeHHMM ((minutesOfDay "12:30" - 120) / 60) ((minutesOfDay "12:30" - 120) % 60) ∧
     minutesOfDay (subtractMinutesHHMI "12:30" 120) = minutesOfDay "12:30" - 120) ∧
    (autoCloseSelect "2026-10-12" "10:30"
      [Reservation.mk 1 1 Status.Confirmed "2026-10-11" "20:00" "355" "A" 2 none none]).length ≤ 500 ∧
    (((Reservation.mk 1 1 Status.Confirmed "2026-10-11" "20:00" "355" "A" 2 none none).status =
        Status.Confirmed ∨
      (Reservation.mk 1 1 Status.Confirmed "2026-10-11" "20:00" "355" "A" 2 none none).status =
        Status.Pending) ∧
     (jsLt "2026-10-11" "2026-10-12" = true ∨
       (("2026-10-11" : String) = "2026-10-12" ∧ jsLe "20:00" "10:30" = true))) ∧
    { Reservation.mk 1 1 Status.Confirmed "2026-10-11" "20:00" "355" "A" 2 none none with
      status := if (Reservation.mk 1 1 Status.Confirmed "2026-10-11" "20:00" "355" "A" 2
          none none).status = Status.Confirmed then Status.Completed else Status.NoShow,
      closed_at := some 777, closed_reason := some "auto_close_cron" } ∈
      (autoCloseProcess
        [Reservation.mk 1 1 Status.Confirmed "2026-10-11" "20:00" "355" "A" 2 none none] 777
        (DB.mk [Reservation.mk 1 1 Status.Confirmed "2026-10-11" "20:00" "355" "A" 2 none none]
          [] [])).2.reservations :=
  ⟨⟨⟨12, 30, by omega, by omega, by decide⟩, by decide, by decide⟩,
   C6_auto_close_sweep.1 "12:30" ⟨12, 30, by omega, by omega, by decide⟩,
   C6_auto_close_sweep.2.1 "2026-10-12" "10:30"
     [Reservation.mk 1 1 Status.Confirmed "2026-10-11" "20:00" "355" "A" 2 none none],
   C6_auto_close_sweep.2.2.1 "2026-10-12" "10:30"
     [Reservation.mk 1 1 Status.Confirmed "2026-10-11" "20:00" "355" "A" 2 none none]
     (Reservation.mk 1 1 Status.Confirmed "2026-10-11" "20:00" "355" "A" 2 none none)
     (by decide),
   C6_auto_close_sweep.2.2.2.2
     (Reservation.mk 1 1 Status.Confirmed "2026-10-11" "20:00" "355" "A" 2 none none) [] 777
     (DB.mk [Reservation.mk 1 1 Status.Confirmed "2026-10-11" "20:00" "355" "A" 2 none none] [] [])
     (Reservation.mk 1 1 Status.Confirmed "2026-10-11" "20:00" "355" "A" 2 none none)
     (by decide) (by decide) (by simp)⟩


/-! ## Claim C7: completed transitions and customer visit statistics -/

theorem filter_head_eq {α : Type} (p : α → Bool) (l : List α) (r : α)
    (hmem : r ∈ l) (hp : p r = true)
    (hall : ∀ x ∈ l, p x = true → x = r) :
    ∃ k, l.filter p = r :: k := by
  induction l with
  | nil => simp at hmem
  | cons x xs ih =>
    by_cases hx : p x = true
    · have hxr : x = r := hall x (by simp) hx
      subst hxr
      exact ⟨xs.filter p, by simp [hx]⟩
    · have hxf : p x = false := by simpa using hx
      rcases List.mem_cons.mp hmem with rfl | hmem'
    -- r = x contradicts p x = false, p r = true
      · rw [hxf] at hp; exact absurd hp (by simp)
      · obtain ⟨k, hk⟩ := ih hmem' (fun y hy hpy => hall y (by simp [hy]) hpy)
        exact ⟨k, by simp [hxf, hk]⟩

theorem process_customers_unchanged (sel : List Reservation) (ts : Nat) (db : DB) :
    (autoCloseProcess sel ts db).2.customers = db.customers := by
  induction sel generalizing db with
  | nil => rfl
  | cons s rest ih =>
    rw [process_state_step]
    exact ih _

theorem autoClose_customers_unchanged (today nowHHMI : String) (ts : Nat)
    (db : DB) :
    (autoClose today nowHHMI ts db).2.customers = db.customers := by
  unfold autoClose
  exact process_customers_unchanged _ _ _

theorem upsert_existing (cs : List Customer) (rid : Nat) (phone name : String)
    (ts : Nat) (c : Customer) (hc : c ∈ cs)
    (h1 : c.restaurant_id = rid) (h2 : c.phone = phone) :
    { c with full_name := if name == "" then c.full_name else name,
             last_seen_at := max c.last_seen_at ts,
             visits_count := c.visits_count + 1 } ∈
      upsertCustomerVisit rid phone name ts cs := by
  have hany : cs.any (fun x => x.restaurant_id == rid && x.phone == phone) = true :=
    List.any_eq_true.mpr ⟨c, hc, by simp [h1, h2]⟩
  unfold upsertCustomerVisit
  rw [if_pos hany]
  have h0 : (if c.restaurant_id == rid && c.phone == phone then
      { c with full_name := if name == "" then c.full_name else name,
               last_seen_at := max c.last_seen_at ts,
               visits_count := c.visits_count + 1 } else c) ∈
      cs.map (fun x => if x.restaurant_id == rid && x.phone == phone then
        { x with full_name := if name == "" then x.full_name else name,
                 last_seen_at := max x.last_seen_at ts,
                 visits_count := x.visits_count + 1 } else x) :=
    List.mem_map_of_mem _ hc
  rwa [if_pos (by simp [h1, h2])] at h0

theorem upsert_new (cs : List Customer) (rid : Nat) (phone name : String)
    (ts : Nat)
    (hnone : ∀ c ∈ cs, ¬(c.restaurant_id = rid ∧ c.phone = phone)) :
    Customer.mk rid phone name ts ts 1 ∈ upsertCustomerVisit rid phone name ts cs := by
  have hany : cs.any (fun x => x.restaurant_id == rid && x.phone == phone) = false := by
    rw [List.any_eq_false]
    intro c hc
    have := hnone c hc
    simp only [Bool.and_eq_true, beq_iff_eq]
    tauto
  unfold upsertCustomerVisit
  rw [if_neg (by simp [hany])]
  simp

theorem close_complete_spec (db : DB) (rid id : Nat) (r : Reservation)
    (now : Nat) (statsOk : Bool)
    (hfind : findRes rid id db.reservations = some r)
    (hconf : r.status = Status.Confirmed)
    (huniq : ∀ x ∈ db.reservations, x.id = id → x.restaurant_id = rid → x = r) :
    closeReservationByOwner rid id "complete" now statsOk db =
      (CloseResult.closed Status.Confirmed Status.Completed
        { r with status := Status.Completed, closed_at := some now,
                 closed_reason := some "owner_complete" },
       { db with
         reservations := db.reservations.map (fun x =>
           if x.id == id && x.restaurant_id == rid && x.status == Status.Confirmed then
             { x with status := Status.Completed, closed_at := some now,
                      closed_reason := some "owner_complete" }
           else x),
         customers := if statsOk then
             upsertCustomerVisit rid r.phone r.customer_name
               (civilTs (toYMD r.date) ⟨(jsTrim r.time).data.take 5⟩) db.customers
           else db.customers }) := by
  have hmem : r ∈ db.reservations := List.mem_of_find?_eq_some hfind
  have hpred0 := List.find?_some hfind
  have hpred1 : (r.id == id && r.restaurant_id == rid) = true := hpred0
  have hpred : (r.id == id && r.restaurant_id == rid &&
      r.status == Status.Confirmed) = true := by
    simp only [Bool.and_eq_true, beq_iff_eq] at hpred1 ⊢
    exact ⟨hpred1, hconf⟩
  obtain ⟨k, hk⟩ := filter_head_eq
    (fun x => x.id == id && x.restaurant_id == rid && x.status == Status.Confirmed)
    db.reservations r hmem hpred
    (fun x hx hpx => by
      simp only [Bool.and_eq_true, beq_iff_eq] at hpx
      exact huniq x hx hpx.1.1 hpx.1.2)
  simp only [closeReservationByOwner, mapFinalStatus, updateWhere]
  rw [hfind]
  simp only [hconf]
  simp [hk]

/-- **C7 (amended)**: the owner complete action, on transition to Completed,
refreshes the customer's aggregate visit statistics (visits_count + 1,
last_seen_at extended to at least the service timestamp) as a best-effort side
effect whose failure leaves the stored status transition intact; the
auto-close sweep's Confirmed→Completed transitions do NOT refresh customer
statistics — the sweep leaves the customers table unchanged (it only syncs
the events table). -/
theorem C7_completed_refreshes_stats (db : DB) (rid id : Nat) (r : Reservation)
    (now : Nat) (statsOk : Bool)
    (hfind : findRes rid id db.reservations = some r)
    (hconf : r.status = Status.Confirmed)
    (huniq : ∀ x ∈ db.reservations, x.id = id → x.restaurant_id = rid → x = r) :
    ((closeReservationByOwner rid id "complete" now statsOk db).1 =
      CloseResult.closed Status.Confirmed Status.Completed
        { r with status := Status.Completed, closed_at := some now,
                 closed_reason := some "owner_complete" } ∧
     { r with status := Status.Completed, closed_at := some now,
              closed_reason := some "owner_complete" } ∈
       (closeReservationByOwner rid id "complete" now statsOk db).2.reservations) ∧
    (statsOk = false →
      (closeReservationByOwner rid id "complete" now statsOk db).2.customers =
        db.customers) ∧
    (statsOk = true →
      (∀ c ∈ db.customers, c.restaurant_id = rid → c.phone = r.phone →
        { c with
          full_name := if r.customer_name == "" then c.full_name else r.customer_name,
          last_seen_at := max c.last_seen_at
            (civilTs (toYMD r.date) ⟨(jsTrim r.time).data.take 5⟩),
          visits_count := c.visits_count + 1 } ∈
          (closeReservationByOwner rid id "complete" now statsOk db).2.customers ∧
        civilTs (toYMD r.date) ⟨(jsTrim r.time).data.take 5⟩ ≤
          max c.last_seen_at (civilTs (toYMD r.date) ⟨(jsTrim r.time).data.take 5⟩)) ∧
      ((∀ c ∈ db.customers, ¬(c.restaurant_id = rid ∧ c.phone = r.phone)) →
        Customer.mk rid r.phone r.customer_name
          (civilTs (toYMD r.date) ⟨(jsTrim r.time).data.take 5⟩)
          (civilTs (toYMD r.date) ⟨(jsTrim r.time).data.take 5⟩) 1 ∈
          (closeReservationByOwner rid id "complete" now statsOk db).2.customers)) ∧
    (∀ (today nowHHMI : String) (ts : Nat) (db2 : DB),
      (autoClose today nowHHMI ts db2).2.customers = db2.customers) := by
  have hspec := close_complete_spec db rid id r now statsOk hfind hconf huniq
  have hpred0 := List.find?_some hfind
  have hpred1 : (r.id == id && r.restaurant_id == rid) = true := hpred0
  have hpred : (r.id == id && r.restaurant_id == rid &&
      r.status == Status.Confirmed) = true := by
    simp only [Bool.and_eq_true, beq_iff_eq] at hpred1 ⊢
    exact ⟨hpred1, hconf⟩
  have hmem : r ∈ db.reservations := List.mem_of_find?_eq_some hfind
  refine ⟨⟨by rw [hspec], ?_⟩, ?_, ?_, fun today nowHHMI ts db2 =>
    autoClose_customers_unchanged today nowHHMI ts db2⟩
  · rw [hspec]
    have h0 : (if r.id == id && r.restaurant_id == rid &&
          r.status == Status.Confirmed then
        { r with status := Status.Completed, closed_at := some now,
                 closed_reason := some "owner_complete" } else r) ∈
        db.reservations.map (fun x =>
          if x.id == id && x.restaurant_id == rid && x.status == Status.Confirmed then
            { x with status := Status.Completed, closed_at := some now,
                     closed_reason := some "owner_complete" }
          else x) :=
      List.mem_map_of_mem _ hmem
    rwa [if_pos hpred] at h0
  · intro hso
    rw [hspec]
    simp [hso]
  · intro hso
    constructor
    · intro c hc h1 h2
      rw [hspec]
      refine ⟨?_, le_max_right _ _⟩
      simp only [hso, if_true]
      exact upsert_existing db.customers rid r.phone r.customer_name _ c hc h1 h2
    · intro hnone
      rw [hspec]
      simp only [hso, if_true]
      exact upsert_new db.customers rid r.phone r.customer_name _ hnone

/-- Witness for C7 (amended): owner completes a Confirmed reservation for a
customer with 4 recorded visits; the stored customer gains a fifth visit. -/
theorem C7_completed_refreshes_stats_witness :
    (findRes 1 1 [Reservation.mk 1 1 Status.Confirmed "2026-10-11" "20:00" "355" "A" 2
        none none] =
      some (Reservation.mk 1 1 Status.Confirmed "2026-10-11" "20:00" "355" "A" 2
        none none) ∧
      (Reservation.mk 1 1 Status.Confirmed "2026-10-11" "20:00" "355" "A" 2
        none none).status = Status.Confirmed ∧
      (Customer.mk 1 "355" "A" 3 3 4) ∈ [Customer.mk 1 "355" "A" 3 3 4]) ∧
    ({ Customer.mk 1 "355" "A" 3 3 4 with
        full_name := if ("A" : String) == "" then "A" else "A",
        last_seen_at := max 3 (civilTs (toYMD "2026-10-11")
          ⟨(jsTrim "20:00").data.take 5⟩),
        visits_count := 4 + 1 } ∈
      (closeReservationByOwner 1 1 "complete" 99 true
        (DB.mk [Reservation.mk 1 1 Status.Confirmed "2026-10-11" "20:00" "355" "A" 2
          none none] [] [Customer.mk 1 "355" "A" 3 3 4])).2.customers ∧
     civilTs (toYMD "2026-10-11") ⟨(jsTrim "20:00").data.take 5⟩ ≤
       max 3 (civilTs (toYMD "2026-10-11") ⟨(jsTrim "20:00").data.take 5⟩)) :=
  have h := C7_completed_refreshes_stats
    (DB.mk [Reservation.mk 1 1 Status.Confirmed "2026-10-11" "20:00" "355" "A" 2
      none none] [] [Customer.mk 1 "355" "A" 3 3 4])
    1 1 (Reservation.mk 1 1 Status.Confirmed "2026-10-11" "20:00" "355" "A" 2 none none)
    99 true (by decide) (by decide) (by decide)
  ⟨⟨by decide, by decide, by decide⟩,
   (h.2.2.1 rfl).1 (Customer.mk 1 "355" "A" 3 3 4) (by decide) rfl rfl⟩

/-- **C7 counterexample**: the auto-close sweep completes an overdue Confirmed
reservation but leaves the customer's visit statistics untouched
(visits_count stays 0), contradicting the claim that sweep
Confirmed→Completed transitions increment visits_count. -/
theorem C7_counterexample :
    (autoClose "2026-10-12" "12:30" 777
      (DB.mk [Reservation.mk 1 1 Status.Confirmed "2026-10-11" "20:00" "355" "A" 2 none none]
        [] [Customer.mk 1 "355" "A" 0 0 0])).2.reservations =
      [Reservation.mk 1 1 Status.Completed "2026-10-11" "20:00" "355" "A" 2 (some 777)
        (some "auto_close_cron")] ∧
    (autoClose "2026-10-12" "12:30" 777
      (DB.mk [Reservation.mk 1 1 Status.Confirmed "2026-10-11" "20:00" "355" "A" 2 none none]
        [] [Customer.mk 1 "355" "A" 0 0 0])).2.customers =
      [Customer.mk 1 "355" "A" 0 0 0] ∧
    (Customer.mk 1 "355" "A" 0 0 0).visits_count = 0 := by
  decide


/-! ## Claim C2: the state invariant -/

theorem all_resInv_map (l : List Reservation) (p : Reservation → Bool)
    (f : Reservation → Reservation)
    (hl : l.all resInv = true)
    (h : ∀ x, resInv x = true → p x = true → resInv (f x) = true) :
    (l.map fun x => if p x then f x else x).all resInv = true := by
  rw [List.all_eq_true] at hl ⊢
  intro y hy
  obtain ⟨x, hx, rfl⟩ := List.mem_map.mp hy
  by_cases hp : p x = true
  · rw [if_pos hp]; exact h x (hl x hx) hp
  · rw [if_neg (by simp [hp])]; exact hl x hx

theorem decide_status_cases (today : String) (rules : Rules) (dateStr : String)
    (people : Int) (nowHHMI : String) :
    (decideReservationStatus today rules dateStr people nowHHMI).status =
      Status.Pending ∨
    (decideReservationStatus today rules dateStr people nowHHMI).status =
      Status.Confirmed := by
  unfold decideReservationStatus
  dsimp only
  split
  · simp
  · split
    · split
      · simp
      · split <;> simp
    · simp

theorem resInv_open_transition (x : Reservation) (st : Status)
    (hx : resInv x = true) (hp : x.status = Status.Pending)
    (hst : st = Status.Confirmed ∨ st = Status.Declined) :
    resInv { x with status := st } = true := by
  simp only [resInv, hp] at hx
  simp only [resInv]
  rcases hst with rfl | rfl <;> simpa using hx

theorem resInv_closed_transition (x : Reservation) (st : Status) (now : Nat)
    (reason : String)
    (hst : st = Status.Completed ∨ st = Status.NoShow ∨ st = Status.Cancelled) :
    resInv { x with status := st, closed_at := some now,
                    closed_reason := some reason } = true := by
  simp only [resInv]
  rcases hst with rfl | rfl | rfl <;> rfl

theorem ownerConfirm_preserves (rid id : Nat) (l : List Reservation)
    (h : l.all resInv = true) :
    ((ownerConfirm rid id l).2).all resInv = true := by
  have h2 : ((updateWhere
      (fun r => r.id == id && r.restaurant_id == rid && r.status == Status.Pending)
      (fun r => { r with status := Status.Confirmed }) l).2).all resInv = true := by
    apply all_resInv_map _ _ _ h
    intro x hx hp
    simp only [Bool.and_eq_true, beq_iff_eq] at hp
    exact resInv_open_transition x Status.Confirmed hx hp.2 (Or.inl rfl)
  unfold ownerConfirm
  dsimp only
  split
  · split <;> exact h2
  · exact h2

theorem ownerDecline_preserves (rid id : Nat) (l : List Reservation)
    (h : l.all resInv = true) :
    ((ownerDecline rid id l).2).all resInv = true := by
  have h2 : ((updateWhere
      (fun r => r.id == id && r.restaurant_id == rid && r.status == Status.Pending)
      (fun r => { r with status := Status.Declined }) l).2).all resInv = true := by
    apply all_resInv_map _ _ _ h
    intro x hx hp
    simp only [Bool.and_eq_true, beq_iff_eq] at hp
    exact resInv_open_transition x Status.Declined hx hp.2 (Or.inr rfl)
  unfold ownerDecline
  dsimp only
  split
  · split <;> exact h2
  · exact h2

theorem mapFinalStatus_terminal (action : String) (st : Status)
    (h : mapFinalStatus action = some st) :
    st = Status.Completed ∨ st = Status.NoShow ∨ st = Status.Cancelled := by
  unfold mapFinalStatus at h
  split at h
  · exact Or.inl (by simpa using h.symm)
  · split at h
    · exact Or.inr (Or.inl (by simpa using h.symm))
    · split at h
      · exact Or.inr (Or.inr (by simpa using h.symm))
      · simp at h

theorem close_preserves (rid id : Nat) (action : String) (now : Nat)
    (statsOk : Bool) (db : DB) (h : dbInv db = true) :
    dbInv (closeReservationByOwner rid id action now statsOk db).2 = true := by
  unfold closeReservationByOwner
  split
  · exact h
  · rename_i finalStatus hmap
    have hterm := mapFinalStatus_terminal action finalStatus hmap
    split
    · exact h
    · rename_i r hfind
      dsimp only
      split
      · exact h
      · split
        · exact h
        · split
          · exact h
          · split
            · exact h
            · have h2 : ((updateWhere
                  (fun x => x.id == id && x.restaurant_id == rid &&
                    x.status == r.status)
                  (fun x =>
                    { x with
                      status := finalStatus,
                      closed_at := some now,
                      closed_reason := some ("owner_" ++ action) })
                  db.reservations).2).all resInv = true := by
                apply all_resInv_map _ _ _ h
                intro x hx hp
                exact resInv_closed_transition x finalStatus now _ hterm
              split
              · exact h2
              · exact h2
theorem create_preserves (today nowHHMI : String) (rules : Rules) (rid : Nat)
    (req : CreateReq) (nextId : Nat) (db : DB) (h : dbInv db = true) :
    dbInv (createReservation today nowHHMI rules rid req nextId db).2 = true := by
  unfold createReservation
  split
  · exact h
  · split
    · exact h
    · dsimp only
      split
      · exact h
      · split
        · exact h
        · exact h
        · show dbInv { db with reservations := db.reservations ++ [_] } = true
          simp only [dbInv, List.all_append] at h ⊢
          rw [h]
          simp only [Bool.true_and, List.all_cons, List.all_nil, Bool.and_true]
          rcases decide_status_cases today rules (jsTrim req.date) req.people
            nowHHMI with hc | hc <;> simp [resInv, hc]

theorem clickConfirm_preserves (token : String) (now : Int) (db : DB)
    (h : dbInv db = true) :
    dbInv (clickConfirm token now db).2 = true := by
  simp only [clickConfirm]
  split
  · rename_i rid pk hc
    have h2 : ((updateWhere
        (fun r => r.id == pk && r.restaurant_id == rid && r.status == Status.Pending)
        (fun r => { r with status := Status.Confirmed }) db.reservations).2).all
        resInv = true := by
      apply all_resInv_map _ _ _ h
      intro x hx hp
      simp only [Bool.and_eq_true, beq_iff_eq] at hp
      exact resInv_open_transition x Status.Confirmed hx hp.2 (Or.inl rfl)
    split
    · exact h2
    · exact h2
  · exact h

theorem clickDecline_preserves (token : String) (now : Int) (db : DB)
    (h : dbInv db = true) :
    dbInv (clickDecline token now db).2 = true := by
  simp only [clickDecline]
  split
  · rename_i rid pk hc
    have h2 : ((updateWhere
        (fun r => r.id == pk && r.restaurant_id == rid && r.status == Status.Pending)
        (fun r => { r with status := Status.Declined }) db.reservations).2).all
        resInv = true := by
      apply all_resInv_map _ _ _ h
      intro x hx hp
      simp only [Bool.and_eq_true, beq_iff_eq] at hp
      exact resInv_open_transition x Status.Declined hx hp.2 (Or.inr rfl)
    split
    · exact h2
    · exact h2
  · exact h

theorem process_preserves (sel : List Reservation) (ts : Nat) (db : DB)
    (h : dbInv db = true) :
    dbInv (autoCloseProcess sel ts db).2 = true := by
  induction sel generalizing db with
  | nil => exact h
  | cons s rest ih =>
    rw [process_state_step]
    apply ih
    show ((updateWhere (sweepRowPred s) (sweepRowUpd ts s) db.reservations).2).all
      resInv = true
    apply all_resInv_map _ _ _ h
    intro x hx hp
    have hst : sweepFinal s = Status.Completed ∨ sweepFinal s = Status.NoShow := by
      unfold sweepFinal
      split
      · exact Or.inl rfl
      · exact Or.inr rfl
    exact resInv_closed_transition x (sweepFinal s) ts "auto_close_cron"
      (by rcases hst with h' | h' <;> simp [h'])

theorem step_preserves (op : Op) (db : DB) (h : dbInv db = true) :
    dbInv (step op db) = true := by
  cases op with
  | create today nowHHMI rules rid req nextId =>
    exact create_preserves today nowHHMI rules rid req nextId db h
  | ownerConfirm rid id => exact ownerConfirm_preserves rid id db.reservations h
  | ownerDecline rid id => exact ownerDecline_preserves rid id db.reservations h
  | ownerClose rid id action now statsOk =>
    exact close_preserves rid id action now statsOk db h
  | clickConfirm token now => exact clickConfirm_preserves token now db h
  | clickDecline token now => exact clickDecline_preserves token now db h
  | autoClose today nowHHMI ts =>
    exact process_preserves _ ts db h

theorem run_preserves (ops : List Op) (db : DB) (h : dbInv db = true) :
    dbInv (run ops db) = true := by
  induction ops generalizing db with
  | nil => exact h
  | cons op rest ih =>
    rw [run, List.foldl_cons]
    exact ih (step op db) (step_preserves op db h)

/-- **C2 (amended)**: after any sequence of operations (create, owner
confirm/decline, owner complete/no-show/cancel, click-link confirm/decline,
auto-close sweep) starting from a state satisfying it, every reservation has
one of the six enum statuses and `closed_at` is non-null iff its status is in
{Completed, NoShow, Cancelled}: Declined reservations keep `closed_at` null,
because neither decline path writes it (only `closeReservationByOwner` and
the sweep set `closed_at`). -/
theorem C2_state_invariant (ops : List Op) (db : DB) (h : dbInv db = true) :
    dbInv (run ops db) = true ∧
    ∀ r ∈ (run ops db).reservations,
      r.status ∈ [Status.Pending, Status.Confirmed, Status.Declined,
        Status.Completed, Status.NoShow, Status.Cancelled] := by
  refine ⟨run_preserves ops db h, ?_⟩
  intro r _
  cases r.status <;> simp

/-- Witness for C2 (amended) on a create → confirm → complete → sweep run. -/
theorem C2_state_invariant_witness :
    dbInv emptyDB = true ∧
    dbInv (run
      [Op.create "2026-10-12" "09:00" (Rules.mk 6 "11:00") 1
        (CreateReq.mk "A" "355" "2026-10-13" "20:00" 10) 1,
       Op.ownerConfirm 1 1,
       Op.ownerClose 1 1 "complete" 99 true,
       Op.autoClose "2026-10-14" "12:30" 777] emptyDB) = true :=
  ⟨by decide,
   (C2_state_invariant
     [Op.create "2026-10-12" "09:00" (Rules.mk 6 "11:00") 1
       (CreateReq.mk "A" "355" "2026-10-13" "20:00" 10) 1,
      Op.ownerConfirm 1 1,
      Op.ownerClose 1 1 "complete" 99 true,
      Op.autoClose "2026-10-14" "12:30" 777] emptyDB (by decide)).1⟩

/-- **C2 counterexample**: the invariant as claimed — `closed_at` non-null iff
status ∈ {Completed, NoShow, Declined, Cancelled} — fails on the code: after
create (Pending) followed by owner decline, the reservation is Declined with
`closed_at` still null (the decline endpoints update only `status`), while
the amended invariant still holds. -/
theorem C2_counterexample :
    dbInv (run
      [Op.create "2026-10-12" "09:00" (Rules.mk 6 "11:00") 1
        (CreateReq.mk "A" "355" "2026-10-13" "20:00" 10) 1,
       Op.ownerDecline 1 1] emptyDB) = true ∧
    specInvC2 (run
      [Op.create "2026-10-12" "09:00" (Rules.mk 6 "11:00") 1
        (CreateReq.mk "A" "355" "2026-10-13" "20:00" 10) 1,
       Op.ownerDecline 1 1] emptyDB) = false := by
  decide


end TetaAI
